import Mathlib

/-!
# Verification of the template-ingestion pass (`ingest.ts`)

A shallow embedding, in Lean 4, of the template-ingestion compiler pass found
in `src/unnamed/part_000` (the `ingest.ts` file of the render3 template
pipeline). The pass lowers a parsed template AST into a flat intermediate
representation of create/update operations organized into per-view
compilation units.

Modelling conventions:
* TypeScript classes holding plain data become Lean structures; runtime
  `instanceof` dispatch over closed class families becomes matching on
  inductive types.
* The expression AST (`e.*`) is modelled by the inductive `EAst`, restricted
  to the variants the verified claims exercise.  In the source,
  `e.ThisReceiver` is a subclass of `e.ImplicitReceiver` (the source itself
  relies on this at its `isImplicitReceiver` computation, which conjoins
  `instanceof e.ImplicitReceiver` with the negation of
  `instanceof e.ThisReceiver`); the functions `isImplicitReceiverInst` and
  `isThisReceiverInst` reproduce the two `instanceof` tests including that
  subclass relation.
* Fallible code (`throw new Error(...)`) is modelled with `Except String`.
* Mutable push-based accumulation into a unit's create/update lists is
  modelled by explicit state passing (`IngestState`, `ViewUnit`).
* External collaborators that the spec places out of scope (the DOM schema
  security lookup, the host `BindingParser.calcPossibleSecurityContexts`)
  are taken as function parameters.
-/

namespace Ingest

/-! ## Source spans (`parse_util.ts` interface) -/

/-- A location in a source file, reduced to its offset (the only part the
ingestion logic computes with, via `moveBy`). -/
structure ParseLocation where
  offset : Nat
deriving DecidableEq, Repr

/-- An absolute source span, with `start`, `stop` and `fullStart` anchors. -/
structure ParseSourceSpan where
  start : ParseLocation
  stop : ParseLocation
  fullStart : ParseLocation
deriving DecidableEq, Repr

/-- A parse span relative to the start of an expression (`e.ParseSpan`). -/
structure ParseSpan where
  start : Nat
  stop : Nat
deriving DecidableEq, Repr

/-- Embeds `ParseLocation.moveBy`. -/
def ParseLocation.moveBy (l : ParseLocation) (n : Nat) : ParseLocation :=
  ⟨l.offset + n⟩

/-- Embeds `convertSourceSpan`: translates a relative `ParseSpan` through a base
span's start/fullStart anchors; yields `none` when no base span is
supplied. -/
def convertSourceSpan (span : ParseSpan) :
    Option ParseSourceSpan → Option ParseSourceSpan
  | none => none
  | some base =>
      some ⟨base.start.moveBy span.start, base.start.moveBy span.stop,
            base.fullStart.moveBy span.start⟩

/-! ## Enumerations shared with the IR -/

/-- Embeds `SecurityContext` from `core.ts`. -/
inductive SecurityContext
  | NONE
  | HTML
  | STYLE
  | SCRIPT
  | URL
  | RESOURCE_URL
deriving DecidableEq, Repr

/-- Embeds `ir.BindingKind` (the variants this pass produces). -/
inductive BindingKind
  | Property
  | Attribute
  | ClassName
  | StyleProperty
  | Animation
deriving DecidableEq, Repr

/-- Embeds `e.BindingType` (parser-side classification of a dynamic binding). -/
inductive BindingType
  | Property
  | Attribute
  | Class
  | Style
  | Animation
deriving DecidableEq, Repr

/-- Embeds `ir.TemplateKind`. -/
inductive TemplateKind
  | NgTemplate
  | Structural
  | Block
deriving DecidableEq, Repr

/-- Embeds `e.ParsedEventType`. -/
inductive ParsedEventType
  | Regular
  | Animation
deriving DecidableEq, Repr

/-- Embeds `ir.Namespace` (`conversion.ts` collaborator). -/
inductive Namespace
  | HTML
  | SVG
  | Math
deriving DecidableEq, Repr

/-- Embeds `namespaceForKey` from the `conversion.ts` collaborator: maps the
namespace key split off a tag name to an `ir.Namespace`, defaulting to
HTML. -/
def namespaceForKey : Option String → Namespace
  | some "svg" => .SVG
  | some "math" => .Math
  | _ => .HTML

/-- Models `String.prototype.startsWith` (the strings involved are ASCII,
so code-unit and character prefixes coincide).  Implemented over character
lists so that it computes definitionally. -/
def jsStartsWith (s p : String) : Bool :=
  p.data.isPrefixOf s.data

/-- Models `String.prototype.substring(n)`: drops the first `n`
characters.  Implemented over character lists so that it computes
definitionally. -/
def jsSubstringFrom (s : String) (n : Nat) : String :=
  String.mk (s.data.drop n)

/-- Splits a character list at its first colon, if any. -/
def splitAtColon : List Char → Option (List Char × List Char)
  | [] => none
  | c :: cs =>
      if c = ':' then some ([], cs)
      else match splitAtColon cs with
        | some (a, b) => some (c :: a, b)
        | none => none

/-- Embeds `splitNsName` from the `ml_parser/tags.ts` collaborator: a name of the
form `:ns:local` splits into the namespace key and the local name; a name
not starting with a colon has no namespace key. -/
def splitNsName (elementName : String) : Option String × String :=
  match elementName.data with
  | ':' :: rest =>
      match splitAtColon rest with
      | some (ns, localName) => (some (String.mk ns), String.mk localName)
      | none => (none, elementName)
  | _ => (none, elementName)

/-- Tag name of the `ng-template` element (`NG_TEMPLATE_TAG_NAME`). -/
def NG_TEMPLATE_TAG_NAME : String := "ng-template"

/-! ## i18n metadata (`i18n_ast.ts` interface) -/

/-- An `i18n.Message`, reduced to an opaque id plus its placeholder names
(the two parts ingestion consumes). -/
structure Message where
  msgId : Nat
  placeholderNames : List String
deriving DecidableEq, Repr

/-- The closed family of i18n metadata sub-kinds ingestion dispatches on
(`i18n.Message`, `i18n.TagPlaceholder`, `i18n.BlockPlaceholder`,
`i18n.Container`). -/
inductive I18nMeta
  | message (m : Message)
  | tagPlaceholder (id : Nat)
  | blockPlaceholder (id : Nat)
  | container (id : Nat)
deriving DecidableEq, Repr

/-- Embeds `asMessage`: passes a `Message` through, maps `null`/`undefined` to
`null`, and throws on any other metadata sub-kind. -/
def asMessage : Option I18nMeta → Except String (Option Message)
  | none => .ok none
  | some (.message m) => .ok (some m)
  | some _ => .error "Expected i18n meta to be a Message"

/-! ## Expression ASTs -/

/-- The expression AST (`e.AST`), restricted to the variants the claims
exercise.  `e.ASTWithSource` wrappers are assumed already stripped (the
source strips them with `astOf` / by recursing on `.ast`; call sites of the
embedding pass the unwrapped AST).  `thisReceiver` models `e.ThisReceiver`,
which in the source is a subclass of `e.ImplicitReceiver`. -/
inductive EAst
  | implicitReceiver (span : ParseSpan)
  | thisReceiver (span : ParseSpan)
  | propertyRead (span : ParseSpan) (receiver : EAst) (name : String)
  | call (span : ParseSpan) (receiver : EAst) (args : List EAst)
  | literalStr (span : ParseSpan) (value : String)
  | chain (span : ParseSpan) (exprs : List EAst)
deriving Repr

/-- The `instanceof e.ImplicitReceiver` test.  `e.ThisReceiver` is a
subclass of `e.ImplicitReceiver`, so the test is also true for it. -/
def isImplicitReceiverInst : EAst → Bool
  | .implicitReceiver _ => true
  | .thisReceiver _ => true
  | _ => false

/-- The `instanceof e.ThisReceiver` test. -/
def isThisReceiverInst : EAst → Bool
  | .thisReceiver _ => true
  | _ => false

/-- Output/IR expressions (`o.Expression` and the `ir` expression variants),
restricted to what the embedded fragment of `convertAst` produces. -/
inductive OExpr
  | literal (value : String) (span : Option ParseSourceSpan)
  | lexicalRead (name : String)
  | context (xref : Nat)
  | readProp (receiver : OExpr) (name : String) (span : Option ParseSourceSpan)
  | invokeFn (fn : OExpr) (args : List OExpr) (span : Option ParseSourceSpan)
deriving Repr

mutual

/-- Embeds `convertAst`: lowers an expression AST node into an output expression.
`rootXref` stands for `job.root.xref` (the only part of the compilation job
this fragment reads; none of the embedded variants allocate ids).
`baseSourceSpan` is the base span used by `convertSourceSpan`.

Clause-by-clause correspondence with the source:
* `propertyRead`: computes `isThisReceiver`, `isImplicitReceiver`
  (implicit *excluding* explicit `this`), and `isSpecialNode`
  (name `$any` or `$event`); lowers to a bare `ir.LexicalReadExpr` when
  `isImplicitReceiver || (isThisReceiver && !isSpecialNode)`, and otherwise
  to an `o.ReadPropExpr` over the lowered receiver.
* `call`: throws `Unexpected ImplicitReceiver` when the receiver passes the
  `instanceof e.ImplicitReceiver` test (which includes explicit `this`),
  otherwise lowers to `o.InvokeFunctionExpr`.
* `thisReceiver`: lowers to `ir.ContextExpr` of the root view.
* `literalStr`: lowers to `o.literal`.
* `implicitReceiver` and `chain` reach the source's trailing `else` /
  dedicated `Chain` branch, both of which throw. -/
def convertAst (rootXref : Nat) (baseSourceSpan : Option ParseSourceSpan) :
    EAst → Except String OExpr
  | .propertyRead span receiver name =>
      let isThisReceiver := isThisReceiverInst receiver
      let isImplicitReceiver :=
        isImplicitReceiverInst receiver && !isThisReceiverInst receiver
      let isSpecialNode := name = "$any" || name = "$event"
      if isImplicitReceiver || (isThisReceiver && !isSpecialNode) then
        .ok (.lexicalRead name)
      else do
        let r ← convertAst rootXref baseSourceSpan receiver
        .ok (.readProp r name (convertSourceSpan span baseSourceSpan))
  | .call span receiver args =>
      if isImplicitReceiverInst receiver then
        .error "Unexpected ImplicitReceiver"
      else do
        let r ← convertAst rootXref baseSourceSpan receiver
        let as ← convertAstList rootXref baseSourceSpan args
        .ok (.invokeFn r as (convertSourceSpan span baseSourceSpan))
  | .literalStr span value =>
      .ok (.literal value (convertSourceSpan span baseSourceSpan))
  | .thisReceiver _ => .ok (.context rootXref)
  | .implicitReceiver _ => .error "Unhandled expression type"
  | .chain _ _ => .error "AssertionError: Chain in unknown context"

/-- Lowers a list of argument expressions in order (the `ast.args.map(...)`
of the source, sequenced through the error monad). -/
def convertAstList (rootXref : Nat) (baseSourceSpan : Option ParseSourceSpan) :
    List EAst → Except String (List OExpr)
  | [] => .ok []
  | a :: rest => do
      let e ← convertAst rootXref baseSourceSpan a
      let es ← convertAstList rootXref baseSourceSpan rest
      .ok (e :: es)

end

/-! ## IR operations

The operation variants below carry exactly the fields the ingestion code in
`src/unnamed/part_000` populates (slot handles, which are opaque placeholder
objects resolved by a later pass, and `localRefs` are omitted; no verified
claim concerns them). -/

/-- The `SecurityContext|SecurityContext[]` union accepted by
`ir.createBindingOp`. -/
inductive SecuritySpec
  | one (c : SecurityContext)
  | many (cs : List SecurityContext)
deriving DecidableEq, Repr

/-- Embeds `ir.Interpolation`. -/
structure Interpolation where
  strings : List String
  expressions : List OExpr
  i18nPlaceholders : List String
deriving Repr

/-- The `o.Expression|ir.Interpolation` union used as a binding's value. -/
inductive BindingValue
  | expr (e : OExpr)
  | interp (i : Interpolation)
deriving Repr

/-- Embeds `ir.BindingOp` (an update-list operation). -/
structure BindingOp where
  target : Nat
  bindingKind : BindingKind
  name : String
  expression : BindingValue
  unitSuffix : Option String
  securityContext : SecuritySpec
  isTextAttribute : Bool
  isStructuralTemplateAttribute : Bool
  templateKind : Option TemplateKind
  i18nMessage : Option Message
  sourceSpan : Option ParseSourceSpan
deriving Repr

/-- Embeds `ir.createBindingOp`. -/
def createBindingOp (target : Nat) (bindingKind : BindingKind) (name : String)
    (expression : BindingValue) (unitSuffix : Option String)
    (securityContext : SecuritySpec) (isTextAttribute : Bool)
    (isStructuralTemplateAttribute : Bool) (templateKind : Option TemplateKind)
    (i18nMessage : Option Message) (sourceSpan : Option ParseSourceSpan) :
    BindingOp :=
  ⟨target, bindingKind, name, expression, unitSuffix, securityContext,
   isTextAttribute, isStructuralTemplateAttribute, templateKind, i18nMessage,
   sourceSpan⟩

/-- Embeds `ir.ExtractedAttributeOp` (a create-list operation). -/
structure ExtractedAttributeOp where
  target : Nat
  bindingKind : BindingKind
  namespaceName : Option String
  name : String
  expression : Option OExpr
  i18nContext : Option Nat
  i18nMessage : Option Message
  securityContext : SecuritySpec
deriving Repr

/-- Embeds `ir.createExtractedAttributeOp`. -/
def createExtractedAttributeOp (target : Nat) (bindingKind : BindingKind)
    (namespaceName : Option String) (name : String) (expression : Option OExpr)
    (i18nContext : Option Nat) (i18nMessage : Option Message)
    (securityContext : SecuritySpec) : ExtractedAttributeOp :=
  ⟨target, bindingKind, namespaceName, name, expression, i18nContext,
   i18nMessage, securityContext⟩

/-- One `(guard, target view, optional alias)` tuple of a conditional
dispatch (`ir.ConditionalCaseExpr`; the slot handle is omitted). -/
structure ConditionalCaseExpr where
  expr : Option OExpr
  targetXref : Nat
  caseAlias : Option String
deriving Repr

/-- Update-list operations produced by the embedded fragment. -/
inductive UpdateOp
  | binding (b : BindingOp)
  | statementExpr (e : OExpr)
  | statementReturn (e : OExpr)
  | conditional (firstXref : Option Nat) (test : Option OExpr)
      (conditions : List ConditionalCaseExpr) (sourceSpan : ParseSourceSpan)
deriving Repr

/-- Embeds `ir.ListenerOp` (slot handle omitted). -/
structure ListenerOp where
  target : Nat
  name : String
  tag : Option String
  handlerOps : List UpdateOp
  animationPhase : Option String
  eventTarget : Option String
  hostListener : Bool
  sourceSpan : ParseSourceSpan
deriving Repr

/-- Create-list operations produced by the embedded fragment. -/
inductive CreateOp
  | elementStart (tag : String) (xref : Nat) (namespace_ : Namespace)
      (i18nPlaceholder : Option I18nMeta) (startSourceSpan : ParseSourceSpan)
      (wholeSourceSpan : ParseSourceSpan)
  | elementEnd (xref : Nat) (sourceSpan : ParseSourceSpan)
  | templateOp (childXref : Nat) (kind : TemplateKind) (tag : Option String)
      (functionNameSuffix : String) (namespace_ : Namespace)
      (i18nPlaceholder : Option I18nMeta) (startSourceSpan : ParseSourceSpan)
      (wholeSourceSpan : ParseSourceSpan)
  | textOp (xref : Nat) (initialValue : String) (icuPlaceholder : Option String)
      (sourceSpan : ParseSourceSpan)
  | extractedAttr (a : ExtractedAttributeOp)
  | listener (l : ListenerOp)
  | i18nStart (xref : Nat) (message : Message) (sourceSpan : ParseSourceSpan)
  | i18nEnd (xref : Nat) (sourceSpan : ParseSourceSpan)
  | i18nAttributes (xref : Nat) (target : Nat)
deriving Repr

/-! ## Compilation units and job state -/

/-- A compilation unit ("view"): its cross-reference id, its parent's id
(`none` for the root), and its two ordered operation lists. -/
structure ViewUnit where
  xref : Nat
  parent : Option Nat
  create : List CreateOp
  update : List UpdateOp
deriving Repr

/-- The per-job mutable state: the monotonically increasing cross-reference
id counter, the root unit's id (read by `convertAst` for `ir.ContextExpr`),
and the child views allocated so far. -/
structure IngestState where
  nextXref : Nat
  rootXref : Nat
  views : List ViewUnit
deriving Repr

/-- Embeds `job.allocateXrefId()`. -/
def allocateXrefId (st : IngestState) : Nat × IngestState :=
  (st.nextXref, { st with nextXref := st.nextXref + 1 })

/-- Embeds `job.allocateView(parent)`: creates a fresh empty unit with a fresh id
and records it in the job. -/
def allocateView (st : IngestState) (parent : Nat) : ViewUnit × IngestState :=
  let v : ViewUnit := ⟨st.nextXref, some parent, [], []⟩
  (v, { st with nextXref := st.nextXref + 1, views := st.views ++ [v] })

/-- Writes an ingested child view's final contents back into the job's view
list (the source mutates the view in place; the embedding passes it by
value and commits it here). -/
def commitView (st : IngestState) (v : ViewUnit) : IngestState :=
  { st with views := st.views.map (fun w => if w.xref = v.xref then v else w) }

/-! ## JavaScript value semantics needed by the i18n-attributes gate -/

/-- A JavaScript value that is either a boolean or `null`; used to embed the
source's strict inequality test `... !== null` applied to the boolean result
of `Array.prototype.some`. -/
inductive JsVal
  | vbool (b : Bool)
  | vnull
deriving DecidableEq, Repr

/-- JavaScript strict inequality against `null`: false only for `null`
itself (a boolean is never `null`). -/
def jsStrictNeqNull : JsVal → Bool
  | .vnull => false
  | .vbool _ => true

/-! ## Template AST nodes (`t.*` interface) -/

/-- Embeds `t.TextAttribute`: a static attribute literal. -/
structure TextAttribute where
  name : String
  value : String
  i18nMeta : Option I18nMeta
  sourceSpan : ParseSourceSpan
deriving Repr

/-- An expression-AST value that may be an `e.Interpolation`
(`e.ASTWithSource` wrappers already stripped, as `astOf` does). -/
inductive AstValue
  | plain (a : EAst)
  | interpolation (strings : List String) (expressions : List EAst)
deriving Repr

/-- The `string | e.AST` union flowing into `convertAstWithInterpolation`
and `createTemplateBinding`. -/
inductive StrOrAst
  | str (s : String)
  | astV (v : AstValue)
deriving Repr

/-- Embeds `t.BoundAttribute`: a dynamic binding. -/
structure BoundAttribute where
  type : BindingType
  name : String
  value : AstValue
  unitSuffix : Option String
  securityContext : SecurityContext
  i18nMeta : Option I18nMeta
  sourceSpan : ParseSourceSpan
deriving Repr

/-- Embeds `t.BoundEvent`: an event declaration. -/
structure TBoundEvent where
  name : String
  type : ParsedEventType
  handler : EAst
  phase : Option String
  target : Option String
  handlerSpan : ParseSourceSpan
  sourceSpan : ParseSourceSpan
deriving Repr

/-! ## Binding-value conversion -/

/-- Embeds `convertAstWithInterpolation`: a string becomes an output literal, an
interpolation becomes an `ir.Interpolation` whose placeholder names come
from the i18n message, and any other AST is lowered with `convertAst`. -/
def convertAstWithInterpolation (rootXref : Nat) (value : StrOrAst)
    (i18nMeta : Option I18nMeta) (sourceSpan : Option ParseSourceSpan) :
    Except String BindingValue := do
  match value with
  | .astV (.interpolation strings exprs) =>
      let es ← convertAstList rootXref sourceSpan exprs
      let msg ← asMessage i18nMeta
      .ok (.interp ⟨strings, es, (msg.map Message.placeholderNames).getD []⟩)
  | .astV (.plain a) =>
      let e ← convertAst rootXref sourceSpan a
      .ok (.expr e)
  | .str s => .ok (.expr (.literal s none))

/-- The `BINDING_KINDS` map from parser binding types to IR binding kinds
(total, as the source map covers every variant this pass feeds it). -/
def BINDING_KINDS : BindingType → BindingKind
  | .Property => .Property
  | .Attribute => .Attribute
  | .Class => .ClassName
  | .Style => .StyleProperty
  | .Animation => .Animation

/-- An entry of the `Array<ir.BindingOp|ir.ExtractedAttributeOp|null>`
accumulated during binding ingestion (`null` is `Option.none` around
this type). -/
inductive PreBinding
  | binding (b : BindingOp)
  | extracted (a : ExtractedAttributeOp)
deriving Repr

/-- The i18n message carried by a binding entry (`b?.i18nMessage`). -/
def preI18nMessage : PreBinding → Option Message
  | .binding b => b.i18nMessage
  | .extracted a => a.i18nMessage

/-- Embeds `bindings.filter(b => b?.kind === ir.OpKind.ExtractedAttribute)`. -/
def filterExtracted (bindings : List (Option PreBinding)) :
    List ExtractedAttributeOp :=
  bindings.filterMap (fun b => match b with
    | some (.extracted a) => some a
    | _ => none)

/-- Embeds `bindings.filter(b => b?.kind === ir.OpKind.Binding)`. -/
def filterBindings (bindings : List (Option PreBinding)) : List BindingOp :=
  bindings.filterMap (fun b => match b with
    | some (.binding bo) => some bo
    | _ => none)

/-- The gate of the i18n-attributes bracket op:
`bindings.some(b => b?.i18nMessage) !== null`.  The left operand is the
boolean result of `some` (truthiness of `b?.i18nMessage`: the entry is
non-null and carries a message); the strict comparison against `null` is
embedded by `jsStrictNeqNull`. -/
def i18nAttributesGate (bindings : List (Option PreBinding)) : Bool :=
  jsStrictNeqNull (.vbool (bindings.any (fun b => match b with
    | some pb => (preI18nMessage pb).isSome
    | none => false)))

/-- Embeds `makeListenerHandlerOps`: a comma-chain handler becomes one statement
per expression with the last becoming a return statement.  The `none`
branch of the final match is unreachable: the source pops from a list whose
non-emptiness was just checked. -/
def makeListenerHandlerOps (rootXref : Nat) (handler : EAst)
    (handlerSpan : ParseSourceSpan) : Except String (List UpdateOp) := do
  let handlerExprs : List EAst := match handler with
    | .chain _ exprs => exprs
    | h => [h]
  if handlerExprs.length = 0 then
    throw "Expected listener to have non-empty expression list."
  let expressions ← convertAstList rootXref (some handlerSpan) handlerExprs
  match expressions.getLast? with
  | none => throw "Expected listener to have non-empty expression list."
  | some returnExpr =>
      .ok (expressions.dropLast.map UpdateOp.statementExpr
           ++ [UpdateOp.statementReturn returnExpr])

/-! ## Element and template binding ingestion -/

/-- The element fields consumed by ingestion, except for children (which
live on the `TNode.element` constructor so that the node family stays a
plain nested inductive). -/
structure TElementData where
  name : String
  attributes : List TextAttribute
  inputs : List BoundAttribute
  outputs : List TBoundEvent
  i18nMeta : Option I18nMeta
  startSourceSpan : ParseSourceSpan
  endSourceSpan : Option ParseSourceSpan
  wholeSourceSpan : ParseSourceSpan
deriving Repr

/-- The template-AST nodes the embedded dispatcher supports (the source
dispatches over many more block kinds; the ones claims exercise — switch
blocks, defer triggers, control-flow insertion points — are embedded as
standalone functions below). -/
inductive TNode
  | element (data : TElementData) (children : List TNode)
  | text (value : String) (sourceSpan : ParseSourceSpan)
deriving Repr

/-- Embeds `ingestElementBindings`: converts an element's static attributes and
dynamic bindings into binding entries, pushes extracted-attribute entries
to the create-list and binding entries to the update-list, appends listener
ops for outputs (throwing for an animation listener without a phase), and
finally appends the i18n-attributes bracket op whenever
`i18nAttributesGate` holds — which, mirroring the source's
`bindings.some(...) !== null`, is always. -/
def ingestElementBindings (schema : String → String → Bool → SecurityContext)
    (st : IngestState) (unit : ViewUnit) (opXref : Nat) (opTag : Option String)
    (el : TElementData) : Except String (IngestState × ViewUnit) := do
  let attrBindings ← el.attributes.mapM (fun attr => do
    let securityContext := schema el.name attr.name true
    let value ← convertAstWithInterpolation st.rootXref (.str attr.value)
      attr.i18nMeta none
    let msg ← asMessage attr.i18nMeta
    pure (some (PreBinding.binding (createBindingOp opXref .Attribute attr.name
      value none (.one securityContext) true false none msg
      (some attr.sourceSpan)))))
  let inputBindings ← el.inputs.mapM (fun input => do
    let value ← convertAstWithInterpolation st.rootXref (.astV input.value)
      input.i18nMeta none
    let msg ← asMessage input.i18nMeta
    pure (some (PreBinding.binding (createBindingOp opXref
      (BINDING_KINDS input.type) input.name value input.unitSuffix
      (.one input.securityContext) false false none msg
      (some input.sourceSpan)))))
  let bindings : List (Option PreBinding) := attrBindings ++ inputBindings
  let unit := { unit with
    create := unit.create ++ (filterExtracted bindings).map CreateOp.extractedAttr,
    update := unit.update ++ (filterBindings bindings).map UpdateOp.binding }
  let listenerOps ← el.outputs.mapM (fun output => do
    if output.type = ParsedEventType.Animation ∧ output.phase = none then
      throw "Animation listener should have a phase"
    let handlerOps ← makeListenerHandlerOps st.rootXref output.handler
      output.handlerSpan
    pure (CreateOp.listener ⟨opXref, output.name, opTag, handlerOps,
      output.phase, output.target, false, output.sourceSpan⟩))
  let unit := { unit with create := unit.create ++ listenerOps }
  if i18nAttributesGate bindings then
    let (id, st) := allocateXrefId st
    return (st, { unit with create := unit.create ++ [CreateOp.i18nAttributes id opXref] })
  return (st, unit)

/-- Embeds `createTemplateBinding`: ingests one binding on an explicit
`ng-template` or structural-directive template.  Returns the binding entry,
or `none` when the binding is skipped entirely. -/
def createTemplateBinding (rootXref : Nat) (xref : Nat) (type : BindingType)
    (name : String) (value : StrOrAst) (unitSuffix : Option String)
    (securityContext : SecurityContext) (isStructuralTemplateAttribute : Bool)
    (templateKind : Option TemplateKind) (i18nMessage : Option Message)
    (sourceSpan : ParseSourceSpan) : Except String (Option PreBinding) :=
  let isTextBinding : Bool := match value with
    | .str _ => true
    | _ => false
  -- the source's two early returns inside `if templateKind === Structural`,
  -- written as a guarded conditional chain
  if templateKind = some TemplateKind.Structural ∧
      isStructuralTemplateAttribute = false ∧
      (type = BindingType.Property ∨ type = BindingType.Class ∨
       type = BindingType.Style) then
    -- demoted to an extracted-attribute record only (no update instruction)
    .ok (some (.extracted (createExtractedAttributeOp xref .Property none
      name none none i18nMessage (.one securityContext))))
  else if templateKind = some TemplateKind.Structural ∧ isTextBinding = false ∧
      (type = BindingType.Attribute ∨ type = BindingType.Animation) then
    -- dropped entirely
    .ok none
  else do
    let bindingType := BINDING_KINDS type
    let bindingType :=
      if templateKind = some TemplateKind.NgTemplate ∧
          (type = BindingType.Class ∨ type = BindingType.Style ∨
           (type = BindingType.Attribute ∧ isTextBinding = false)) then
        BindingKind.Property
      else bindingType
    let v ← convertAstWithInterpolation rootXref value
      (i18nMessage.map I18nMeta.message) none
    return some (.binding (createBindingOp xref bindingType name v unitSuffix
      (.one securityContext) isTextBinding isStructuralTemplateAttribute
      templateKind i18nMessage (some sourceSpan)))

/-- The `t.TextAttribute|t.BoundAttribute` union of a template's
`templateAttrs`. -/
inductive TemplateAttr
  | textA (a : TextAttribute)
  | boundA (b : BoundAttribute)
deriving Repr

/-- The template fields consumed by `ingestTemplateBindings` (children are
not consumed by this function). -/
structure TTemplateData where
  tagName : Option String
  templateAttrs : List TemplateAttr
  attributes : List TextAttribute
  inputs : List BoundAttribute
  outputs : List TBoundEvent
  i18nMeta : Option I18nMeta
  startSourceSpan : ParseSourceSpan
  endSourceSpan : Option ParseSourceSpan
  wholeSourceSpan : ParseSourceSpan
deriving Repr

/-- Embeds `ingestTemplateBindings`: the template variant of binding ingestion.
Template attributes target the structural directive
(`isStructuralTemplateAttribute` true); plain attributes and inputs target
the inner element.  Listener ops are only created for plain `ng-template`s;
on structural templates a non-animation output only contributes an
extracted-attribute record.  Ends with the same always-true
i18n-attributes gate as the element variant. -/
def ingestTemplateBindings (schema : String → String → Bool → SecurityContext)
    (st : IngestState) (unit : ViewUnit) (opXref : Nat) (opTag : Option String)
    (tmpl : TTemplateData) (templateKind : Option TemplateKind) :
    Except String (IngestState × ViewUnit) := do
  let taBindings ← tmpl.templateAttrs.mapM (fun attr => match attr with
    | .textA a => do
        let securityContext := schema NG_TEMPLATE_TAG_NAME a.name true
        let msg ← asMessage a.i18nMeta
        createTemplateBinding st.rootXref opXref .Attribute a.name
          (.str a.value) none securityContext true templateKind msg
          a.sourceSpan
    | .boundA b => do
        let msg ← asMessage b.i18nMeta
        createTemplateBinding st.rootXref opXref b.type b.name (.astV b.value)
          b.unitSuffix b.securityContext true templateKind msg b.sourceSpan)
  let attrBindings ← tmpl.attributes.mapM (fun attr => do
    let securityContext := schema NG_TEMPLATE_TAG_NAME attr.name true
    let msg ← asMessage attr.i18nMeta
    createTemplateBinding st.rootXref opXref .Attribute attr.name
      (.str attr.value) none securityContext false templateKind msg
      attr.sourceSpan)
  let inputBindings ← tmpl.inputs.mapM (fun input => do
    let msg ← asMessage input.i18nMeta
    createTemplateBinding st.rootXref opXref input.type input.name
      (.astV input.value) input.unitSuffix input.securityContext false
      templateKind msg input.sourceSpan)
  let bindings : List (Option PreBinding) :=
    taBindings ++ attrBindings ++ inputBindings
  let unit := { unit with
    create := unit.create ++ (filterExtracted bindings).map CreateOp.extractedAttr,
    update := unit.update ++ (filterBindings bindings).map UpdateOp.binding }
  let outputOps ← tmpl.outputs.mapM (fun output => do
    if output.type = ParsedEventType.Animation ∧ output.phase = none then
      throw "Animation listener should have a phase"
    let listenerPart ← if templateKind = some TemplateKind.NgTemplate then do
        let handlerOps ← makeListenerHandlerOps st.rootXref output.handler
          output.handlerSpan
        pure [CreateOp.listener ⟨opXref, output.name, opTag, handlerOps,
          output.phase, output.target, false, output.sourceSpan⟩]
      else pure []
    let extractedPart :=
      if templateKind = some TemplateKind.Structural ∧
          output.type ≠ ParsedEventType.Animation then
        [CreateOp.extractedAttr (createExtractedAttributeOp opXref .Property
          none output.name none none none
          (.one (schema NG_TEMPLATE_TAG_NAME output.name false)))]
      else []
    pure (listenerPart ++ extractedPart))
  let unit := { unit with create := unit.create ++ outputOps.flatten }
  if i18nAttributesGate bindings then
    let (id, st) := allocateXrefId st
    return (st, { unit with create := unit.create ++ [CreateOp.i18nAttributes id opXref] })
  return (st, unit)

/-! ## Node ingestion (element/text dispatcher) -/

/-- Embeds `ingestText`: a literal text node becomes one create-list text op. -/
def ingestText (st : IngestState) (unit : ViewUnit) (value : String)
    (sourceSpan : ParseSourceSpan) (icuPlaceholder : Option String) :
    IngestState × ViewUnit :=
  let (id, st) := allocateXrefId st
  (st, { unit with create := unit.create ++ [CreateOp.textOp id value icuPlaceholder sourceSpan] })

/-- Embeds `ir.OpList.insertBefore` specialised to the only use this fragment
makes of it: inserting an op immediately before the list's last element
(the just-pushed element-end op). -/
def insertBeforeLast (x : α) : List α → List α
  | [] => [x]
  | [y] => [x, y]
  | y :: rest => y :: insertBeforeLast x rest

mutual

/-- Embeds `ingestNodes`: dispatches each node in order, appending to the same
unit.  (The node argument comes first so that the recursion is structural
and computes definitionally.) -/
def ingestNodes (schema : String → String → Bool → SecurityContext) :
    (l : List TNode) → IngestState → ViewUnit → Except String (IngestState × ViewUnit)
  | [], st, unit => .ok (st, unit)
  | n :: rest, st, unit => do
      let (st, unit) ← ingestNode schema n st unit
      ingestNodes schema rest st unit
termination_by structural l => l

/-- One step of the dispatcher.  The `t.Text` variant is `ingestText`; the
`t.Element` variant inlines the source's `ingestElement`: fatal error on
unsupported i18n sub-kinds; allocates the element's id; pushes
element-start; ingests bindings; opens an i18n block for message-level
i18n; recurses into children; pushes element-end whose span falls back to
the start span when no distinct end tag exists; and inserts the i18n-end
op immediately before the element-end op.  (Local references are not
modelled; no claim concerns them.) -/
def ingestNode (schema : String → String → Bool → SecurityContext) :
    (n : TNode) → IngestState → ViewUnit → Except String (IngestState × ViewUnit)
  | .text value sourceSpan, st, unit => .ok (ingestText st unit value sourceSpan none)
  | .element data children, st, unit => do
      match data.i18nMeta with
      | none => pure ()
      | some (.message _) => pure ()
      | some (.tagPlaceholder _) => pure ()
      | some _ => throw "Unhandled i18n metadata type for element"
      let (id, st) := allocateXrefId st
      let (nsKey, elementName) := splitNsName data.name
      let startOp := CreateOp.elementStart elementName id (namespaceForKey nsKey)
        (match data.i18nMeta with
         | some (.tagPlaceholder p) => some (.tagPlaceholder p)
         | _ => none)
        data.startSourceSpan data.wholeSourceSpan
      let unit := { unit with create := unit.create ++ [startOp] }
      let (st, unit) ← ingestElementBindings schema st unit id (some elementName) data
      let (i18nBlockId, st, unit) ← match data.i18nMeta with
        | some (.message m) =>
            let (bid, st) := allocateXrefId st
            pure (some bid,
              st,
              { unit with create := unit.create ++ [CreateOp.i18nStart bid m data.startSourceSpan] })
        | _ => pure ((none : Option Nat), st, unit)
      let (st, unit) ← ingestNodes schema children st unit
      let endOp := CreateOp.elementEnd id (data.endSourceSpan.getD data.startSourceSpan)
      let unit := { unit with create := unit.create ++ [endOp] }
      let unit := match i18nBlockId with
        | some bid =>
            { unit with create :=
                insertBeforeLast (CreateOp.i18nEnd bid (data.endSourceSpan.getD data.startSourceSpan)) unit.create }
        | none => unit
      return (st, unit)
termination_by structural n => n

end

/-! ## Switch-block ingestion -/

/-- One `@case` of a switch block (`t.SwitchBlockCase`). -/
structure SwitchCase where
  expression : Option EAst
  children : List TNode
  i18nMeta : Option I18nMeta
  startSourceSpan : ParseSourceSpan
  wholeSourceSpan : ParseSourceSpan
deriving Repr

/-- A `@switch` block (`t.SwitchBlock`). -/
structure SwitchBlock where
  expression : EAst
  cases : List SwitchCase
  startSourceSpan : ParseSourceSpan
  wholeSourceSpan : ParseSourceSpan
deriving Repr

/-- Embeds `ingestSwitchBlock`: a switch with zero cases is not ingested at all
(the source returns before touching any state); otherwise each case gets a
child view plus a block-kind template op in the parent, and one conditional
dispatch op keyed off the first case goes to the parent's update list. -/
def ingestSwitchBlock (schema : String → String → Bool → SecurityContext)
    (st : IngestState) (unit : ViewUnit) (swb : SwitchBlock) :
    Except String (IngestState × ViewUnit) := do
  if swb.cases.length = 0 then
    return (st, unit)
  let (st, unit, conditions, firstXref) ← swb.cases.foldlM
    (fun (acc : IngestState × ViewUnit × List ConditionalCaseExpr × Option Nat)
         switchCase => do
      let (st, unit, conditions, firstXref) := acc
      let (cView, st) := allocateView st unit.xref
      let caseI18n ← match switchCase.i18nMeta with
        | none => pure none
        | some (.blockPlaceholder p) => pure (some (I18nMeta.blockPlaceholder p))
        | some _ => throw "Unhandled i18n metadata type for switch block"
      let templateOp := CreateOp.templateOp cView.xref .Block none "Case"
        .HTML caseI18n switchCase.startSourceSpan switchCase.wholeSourceSpan
      let unit := { unit with create := unit.create ++ [templateOp] }
      let firstXref := match firstXref with
        | none => some cView.xref
        | some x => some x
      let caseExpr ← match switchCase.expression with
        | some expr => do
            let e ← convertAst st.rootXref (some swb.startSourceSpan) expr
            pure (some e)
        | none => pure none
      let conditions := conditions ++ [ConditionalCaseExpr.mk caseExpr cView.xref none]
      let (st, cView) ← ingestNodes schema switchCase.children st cView
      let st := commitView st cView
      pure (st, unit, conditions, firstXref))
    (st, unit, [], none)
  let test ← convertAst st.rootXref none swb.expression
  return (st, { unit with
    update := unit.update ++ [UpdateOp.conditional firstXref (some test) conditions swb.wholeSourceSpan] })

/-! ## Defer-block trigger ingestion

The embedding below covers the trigger-configuration loop of
`ingestDeferBlock` (the part every defer claim concerns): the source walks
the two trigger records `[deferBlock.triggers, deferBlock.prefetchTriggers]`
with a `prefetch` flag that is false for the first pass and true for the
second, pushing into two lists shared across both passes, and at the end of
each pass synthesizes an idle trigger when both lists are still empty. -/

/-- A trigger that only carries its source span (`idle`, `immediate`). -/
structure SpanTrigger where
  sourceSpan : ParseSourceSpan
deriving DecidableEq, Repr

/-- A fixed-delay timer trigger. -/
structure TimerTrigger where
  delay : Nat
  sourceSpan : ParseSourceSpan
deriving DecidableEq, Repr

/-- A trigger referencing another named element (`hover`, `interaction`,
`viewport`); this pass only records the name. -/
structure RefTrigger where
  reference : Option String
  sourceSpan : ParseSourceSpan
deriving Repr

/-- A boolean `when` trigger. -/
structure WhenTrigger where
  value : AstValue
  sourceSpan : ParseSourceSpan
deriving Repr

/-- Embeds `t.DeferredBlockTriggers`: each recognized trigger kind is optional. -/
structure DeferredBlockTriggers where
  idle : Option SpanTrigger
  immediate : Option SpanTrigger
  timer : Option TimerTrigger
  hover : Option RefTrigger
  interaction : Option RefTrigger
  viewport : Option RefTrigger
  whenTrigger : Option WhenTrigger
deriving Repr

/-- Embeds `ir.DeferTriggerKind` plus its per-kind payload (the
`targetXref`/`targetSlot`/`targetView`/`targetSlotViewSteps` fields are all
`null` at ingestion time and are omitted). -/
inductive DeferTriggerKind
  | Idle
  | Immediate
  | Timer (delay : Nat)
  | Hover (targetName : Option String)
  | Interaction (targetName : Option String)
  | Viewport (targetName : Option String)
deriving Repr

/-- Embeds `ir.DeferOnOp` (create-list).  The source span is `Option` because the
synthesized idle trigger is created with a `null!` span. -/
structure DeferOnOp where
  deferXref : Nat
  trigger : DeferTriggerKind
  prefetch : Bool
  sourceSpan : Option ParseSourceSpan
deriving Repr

/-- Embeds `ir.DeferWhenOp` (update-list). -/
structure DeferWhenOp where
  deferXref : Nat
  expr : OExpr
  prefetch : Bool
  sourceSpan : ParseSourceSpan
deriving Repr

/-- The idle trigger op synthesized when a pass ends with both accumulator
lists empty (`createDeferOnOp(deferXref, {kind: Idle}, false, null!)`). -/
def synthIdleOp (deferXref : Nat) : DeferOnOp :=
  ⟨deferXref, .Idle, false, none⟩

/-- Appending at most one op for an optional trigger
(`if (triggers.x !== undefined) deferOnOps.push(...)`). -/
def pushTriggerOpt {α : Type} (o : Option α) (f : α → DeferOnOp)
    (onOps : List DeferOnOp) : List DeferOnOp :=
  match o with
  | some t => onOps ++ [f t]
  | none => onOps

/-- One iteration of the trigger loop of `ingestDeferBlock`: appends an op
for each trigger present on `tr` (in the source's order: idle, immediate,
timer, hover, interaction, viewport, when) to the accumulator lists carried
across passes, throws on an interpolation-valued `when` trigger, and
finally synthesizes a non-prefetch idle trigger if both accumulator lists
are still empty. -/
def deferTriggerPass (deferXref rootXref : Nat) (tr : DeferredBlockTriggers)
    (prefetch : Bool) (onOps : List DeferOnOp) (whenOps : List DeferWhenOp) :
    Except String (List DeferOnOp × List DeferWhenOp) := do
  let onOps := pushTriggerOpt tr.idle
    (fun t => ⟨deferXref, .Idle, prefetch, some t.sourceSpan⟩) onOps
  let onOps := pushTriggerOpt tr.immediate
    (fun t => ⟨deferXref, .Immediate, prefetch, some t.sourceSpan⟩) onOps
  let onOps := pushTriggerOpt tr.timer
    (fun t => ⟨deferXref, .Timer t.delay, prefetch, some t.sourceSpan⟩) onOps
  let onOps := pushTriggerOpt tr.hover
    (fun t => ⟨deferXref, .Hover t.reference, prefetch, some t.sourceSpan⟩) onOps
  let onOps := pushTriggerOpt tr.interaction
    (fun t => ⟨deferXref, .Interaction t.reference, prefetch, some t.sourceSpan⟩) onOps
  let onOps := pushTriggerOpt tr.viewport
    (fun t => ⟨deferXref, .Viewport t.reference, prefetch, some t.sourceSpan⟩) onOps
  let whenOps : List DeferWhenOp ← match tr.whenTrigger with
    | some t =>
        match t.value with
        | .interpolation _ _ =>
            throw "Unexpected interpolation in defer block when trigger"
        | .plain a => do
            let e ← convertAst rootXref (some t.sourceSpan) a
            pure (whenOps ++ [(⟨deferXref, e, prefetch, t.sourceSpan⟩ : DeferWhenOp)])
    | none => pure whenOps
  let onOps :=
    if onOps.length == 0 && whenOps.length == 0 then onOps ++ [synthIdleOp deferXref]
    else onOps
  return (onOps, whenOps)

/-- The full trigger-configuration phase of `ingestDeferBlock`: the regular
pass (`prefetch = false`) followed by the prefetch pass (`prefetch = true`),
sharing the accumulator lists.  The resulting on-trigger ops are pushed to
the unit's create-list and the when-trigger ops to its update-list (not
modelled further here). -/
def ingestDeferTriggers (deferXref rootXref : Nat)
    (triggers prefetchTriggers : DeferredBlockTriggers) :
    Except String (List DeferOnOp × List DeferWhenOp) := do
  let (onOps, whenOps) ← deferTriggerPass deferXref rootXref triggers false [] []
  deferTriggerPass deferXref rootXref prefetchTriggers true onOps whenOps

/-- How many triggers a `t.DeferredBlockTriggers` record declares. -/
def triggerCount (tr : DeferredBlockTriggers) : Nat :=
  (if tr.idle.isSome then 1 else 0) + (if tr.immediate.isSome then 1 else 0) +
  (if tr.timer.isSome then 1 else 0) + (if tr.hover.isSome then 1 else 0) +
  (if tr.interaction.isSome then 1 else 0) +
  (if tr.viewport.isSome then 1 else 0) +
  (if tr.whenTrigger.isSome then 1 else 0)

/-- A triggers record declaring no trigger at all. -/
def noTriggers : DeferredBlockTriggers :=
  ⟨none, none, none, none, none, none, none⟩

/-! ## Host-binding ingestion -/

/-- Embeds `e.ParsedProperty` (the fields host ingestion consumes; `expression`
stands for `property.expression.ast`, the `ASTWithSource` wrapper being
transparent). -/
structure ParsedProperty where
  name : String
  expression : AstValue
  isAnimation : Bool
  sourceSpan : ParseSourceSpan
deriving Repr

/-- Embeds `e.ParsedEvent`. -/
structure ParsedEvent where
  name : String
  type : ParsedEventType
  targetOrPhase : Option String
  handler : EAst
  handlerSpan : ParseSourceSpan
  sourceSpan : ParseSourceSpan
deriving Repr

/-- Embeds `HostBindingInput` (the `attributes` object is modelled by its
`Object.entries` list, in insertion order). -/
structure HostBindingInput where
  componentName : String
  componentSelector : String
  properties : Option (List ParsedProperty)
  attributes : List (String × OExpr)
  events : Option (List ParsedEvent)
deriving Repr

/-- The root unit xref of a `HostBindingCompilationJob` (host-binding jobs
have a single unit; its id is the first one the job allocates). -/
def hostRootXref : Nat := 0

/-- The source span carried by an output expression
(`o.Expression.sourceSpan`, which may be `null`). -/
def OExpr.spanOf : OExpr → Option ParseSourceSpan
  | .literal _ s => s
  | .readProp _ _ s => s
  | .invokeFn _ _ s => s
  | .lexicalRead _ => none
  | .context _ => none

/-- Embeds `ingestHostProperty`: lowers the property's expression (interpolations
become an `ir.Interpolation` with no placeholder names) and appends a
binding op to the root unit's update list. -/
def ingestHostProperty (rootXref : Nat) (property : ParsedProperty)
    (bindingKind : BindingKind) (securityContexts : List SecurityContext) :
    Except String UpdateOp := do
  let expression ← match property.expression with
    | .interpolation strings exprs => do
        let es ← convertAstList rootXref (some property.sourceSpan) exprs
        pure (BindingValue.interp ⟨strings, es, []⟩)
    | .plain ast => do
        let e ← convertAst rootXref (some property.sourceSpan) ast
        pure (BindingValue.expr e)
  return UpdateOp.binding (createBindingOp rootXref bindingKind property.name
    expression none (.many securityContexts) false false none none
    (some property.sourceSpan))

/-- Embeds `ingestHostAttribute`: host attributes are always extracted
(`isTextAttribute` is passed as true even for non-literals); the op's span
is the value's own span (the source's `value.sourceSpan!` assertion is
erased at runtime, so a missing span flows through as `null`). -/
def ingestHostAttribute (rootXref : Nat) (name : String) (value : OExpr)
    (securityContexts : List SecurityContext) : UpdateOp :=
  UpdateOp.binding (createBindingOp rootXref .Attribute name (.expr value)
    none (.many securityContexts) true false none none (OExpr.spanOf value))

/-- Embeds `ingestHostEvent`: a regular event's `targetOrPhase` is its target; an
animation event's is its phase. -/
def ingestHostEvent (rootXref : Nat) (event : ParsedEvent) :
    Except String CreateOp := do
  let (phase, target) :=
    if event.type = ParsedEventType.Regular then
      ((none : Option String), event.targetOrPhase)
    else (event.targetOrPhase, (none : Option String))
  let handlerOps ← makeListenerHandlerOps rootXref event.handler event.handlerSpan
  return CreateOp.listener ⟨rootXref, event.name, none, handlerOps, phase,
    target, true, event.sourceSpan⟩

/-- The body of `ingestHostBinding`'s `for (const property of ...)` loop,
as a recursive function over the remaining properties.  The loop first
reclassifies an `attr.`-named property in place (overwriting `name`), may
further reclassify to animation kind, computes the filtered security
contexts with the (possibly rewritten) name, and appends the property's
binding op to the root unit's update list.  The second component of the
accumulator records the final state of the caller-supplied property
objects. -/
def hostPropertiesLoop (selector : String)
    (calcPossibleSecurityContexts : String → String → Bool → List SecurityContext) :
    List ParsedProperty → ViewUnit → List ParsedProperty →
    Except String (ViewUnit × List ParsedProperty)
  | [], root, outProps => .ok (root, outProps)
  | property :: rest, root, outProps => do
      let bindingKind := BindingKind.Property
      let (property, bindingKind) :=
        if jsStartsWith property.name "attr." then
          ({ property with name := jsSubstringFrom property.name "attr.".length },
           BindingKind.Attribute)
        else (property, bindingKind)
      let bindingKind :=
        if property.isAnimation then BindingKind.Animation else bindingKind
      let securityContexts :=
        (calcPossibleSecurityContexts selector property.name
          (bindingKind = BindingKind.Attribute)).filter
          (fun context => context ≠ SecurityContext.NONE)
      let op ← ingestHostProperty hostRootXref property bindingKind securityContexts
      hostPropertiesLoop selector calcPossibleSecurityContexts rest
        { root with update := root.update ++ [op] } (outProps ++ [property])

/-- The body of `ingestHostBinding`'s loop over `Object.entries(attributes)`. -/
def hostAttributesLoop (selector : String)
    (calcPossibleSecurityContexts : String → String → Bool → List SecurityContext) :
    List (String × OExpr) → ViewUnit → ViewUnit
  | [], root => root
  | (name, value) :: rest, root =>
      let securityContexts :=
        (calcPossibleSecurityContexts selector name true).filter
          (fun context => context ≠ SecurityContext.NONE)
      hostAttributesLoop selector calcPossibleSecurityContexts rest
        { root with update := root.update ++ [ingestHostAttribute hostRootXref name value securityContexts] }

/-- The body of `ingestHostBinding`'s loop over the events. -/
def hostEventsLoop : List ParsedEvent → ViewUnit → Except String ViewUnit
  | [], root => .ok root
  | event :: rest, root => do
      let op ← ingestHostEvent hostRootXref event
      hostEventsLoop rest { root with create := root.create ++ [op] }

/-- Embeds `ingestHostBinding`: processes properties (reclassifying an `attr.`
name in place — the returned property list is the final state of the
caller-supplied property objects), then attributes, then events.
`calcPossibleSecurityContexts` is the external `BindingParser`
collaborator. -/
def ingestHostBinding (input : HostBindingInput)
    (calcPossibleSecurityContexts : String → String → Bool → List SecurityContext) :
    Except String (ViewUnit × List ParsedProperty) := do
  let root : ViewUnit := ⟨hostRootXref, none, [], []⟩
  let (root, outProps) ← hostPropertiesLoop input.componentSelector
    calcPossibleSecurityContexts (input.properties.getD []) root []
  let root := hostAttributesLoop input.componentSelector
    calcPossibleSecurityContexts input.attributes root
  let root ← hostEventsLoop (input.events.getD []) root
  return (root, outProps)

/-- The in-place name rewrite `ingestHostBinding` performs on one property
declaration: strip a leading `attr.` from the name; touch nothing else. -/
def hostMutateProperty (property : ParsedProperty) : ParsedProperty :=
  if jsStartsWith property.name "attr." then
    { property with name := jsSubstringFrom property.name "attr.".length }
  else property

/-! ## Content-projection insertion-point inference -/

/-- The template-AST node shapes `ingestControlFlowInsertionPoint`
distinguishes: `t.Element`, `t.Template` (whose `tagName` may be null),
`t.Comment`, and the remaining node kinds, which the function neither
qualifies as roots nor treats as comments (represented by `textNode` and
`otherNode`). -/
inductive CfNode
  | element (name : String) (attributes : List TextAttribute)
      (inputs : List BoundAttribute)
  | template (tagName : Option String) (attributes : List TextAttribute)
      (inputs : List BoundAttribute)
  | comment (value : String)
  | textNode (value : String)
  | otherNode
deriving Repr

/-- The root-qualification test of the loop:
`child instanceof t.Element || (child instanceof t.Template && child.tagName !== null)`. -/
def cfQualifies : CfNode → Bool
  | .element _ _ _ => true
  | .template tagName _ _ => tagName.isSome
  | _ => false

/-- Embeds `child instanceof t.Comment`. -/
def cfIsComment : CfNode → Bool
  | .comment _ => true
  | _ => false

/-- The static attributes of a root candidate (`root.attributes`). -/
def cfAttributes : CfNode → List TextAttribute
  | .element _ attrs _ => attrs
  | .template _ attrs _ => attrs
  | _ => []

/-- Embeds `root instanceof t.Element ? root.name : root.tagName`. -/
def cfTagOf : CfNode → Option String
  | .element n _ _ => some n
  | .template t _ _ => t
  | _ => none

/-- The root-finding loop of `ingestControlFlowInsertionPoint`: comments
are skipped; any non-comment child encountered while a root is already
held aborts the whole inference (the source's early `return null`);
a qualifying child becomes the root; a non-comment, non-qualifying child
seen before any root is simply passed over. -/
def cfFindRoot : Option CfNode → List CfNode → Option CfNode
  | root, [] => root
  | root, child :: rest =>
      if cfIsComment child then cfFindRoot root rest
      else
        match root with
        | some _ => none
        | none =>
            if cfQualifies child then cfFindRoot (some child) rest
            else cfFindRoot none rest

/-- The binding op pushed for one static attribute of the inferred root
(`createBindingOp` over `o.literal(attr.value)` with an `ng-template`
schema lookup). -/
def mkCfAttrBindingOp (schema : String → String → Bool → SecurityContext)
    (xref : Nat) (attr : TextAttribute) : Except String UpdateOp := do
  let securityContext := schema NG_TEMPLATE_TAG_NAME attr.name true
  let msg ← asMessage attr.i18nMeta
  return UpdateOp.binding (createBindingOp xref .Attribute attr.name
    (.expr (.literal attr.value none)) none (.one securityContext) true false
    none msg (some attr.sourceSpan))

/-- Embeds `ingestControlFlowInsertionPoint`: returns the inferred tag name (null
when there is no eligible single root or when the inferred tag is the
reserved `ng-template` name) together with the binding ops the source
pushes onto the unit's update list for the root's static attributes. -/
def ingestControlFlowInsertionPoint
    (schema : String → String → Bool → SecurityContext) (xref : Nat)
    (children : List CfNode) :
    Except String (Option String × List UpdateOp) := do
  match cfFindRoot none children with
  | none => return (none, [])
  | some root =>
      let ops ← (cfAttributes root).mapM (mkCfAttrBindingOp schema xref)
      let tagName := cfTagOf root
      return (if tagName = some NG_TEMPLATE_TAG_NAME then none else tagName, ops)

/-! ## Shared helpers for the claim theorems -/

/-- A trivial security-schema lookup used for concrete evaluations. -/
def schemaNone : String → String → Bool → SecurityContext :=
  fun _ _ _ => SecurityContext.NONE

/-- A sample source span used for concrete evaluations. -/
def sampleSpan : ParseSourceSpan := ⟨⟨0⟩, ⟨1⟩, ⟨0⟩⟩

/-- Destructures a successful bind in the `Except String` monad. -/
theorem bindOk {α β : Type} {x : Except String α} {f : α → Except String β}
    {b : β} (h : x >>= f = .ok b) : ∃ a, x = .ok a ∧ f a = .ok b := by
  cases x with
  | ok a => exact ⟨a, rfl, h⟩
  | error e => simp [Bind.bind, Except.bind] at h

/-- Inverts a successful `pure` in the `Except String` monad. -/
theorem pureOk {α : Type} {a b : α}
    (h : (pure a : Except String α) = .ok b) : a = b := by
  simpa [pure, Except.pure] using h

/-! ## C8: empty switch blocks -/

/-- C8: Ingesting a switch block with zero cases appends no operations to
the parent compilation unit (neither create- nor update-list) and
allocates no child views: the job state and the parent unit come back
entirely unchanged. -/
theorem emptySwitch_ingests_to_nothing
    (schema : String → String → Bool → SecurityContext) (st : IngestState)
    (unit : ViewUnit) (expr : EAst) (s1 s2 : ParseSourceSpan) :
    ingestSwitchBlock schema st unit ⟨expr, [], s1, s2⟩ = .ok (st, unit) := rfl

/-! ## C4: explicit-`this` property reads -/

/-- C4: A property read with an explicit `this` receiver lowers to a bare
lexical read, except exactly for the special names `$any` and `$event`,
which lower to an explicit-receiver property read on the root view's
context; an implicit-receiver (non-`this`) read always lowers to a bare
lexical read, whatever its name. -/
theorem thisReceiver_read_lowering (rx : Nat) (base : Option ParseSourceSpan)
    (sp rsp : ParseSpan) (name : String) :
    (name ≠ "$any" → name ≠ "$event" →
      convertAst rx base (.propertyRead sp (.thisReceiver rsp) name) =
        .ok (.lexicalRead name)) ∧
    (name = "$any" ∨ name = "$event" →
      convertAst rx base (.propertyRead sp (.thisReceiver rsp) name) =
        .ok (.readProp (.context rx) name (convertSourceSpan sp base))) ∧
    convertAst rx base (.propertyRead sp (.implicitReceiver rsp) name) =
      .ok (.lexicalRead name) := by
  refine ⟨fun h1 h2 => ?_, fun h => ?_, ?_⟩
  · simp [convertAst, isThisReceiverInst, isImplicitReceiverInst, h1, h2]
  · rcases h with rfl | rfl <;>
      simp [convertAst, isThisReceiverInst, isImplicitReceiverInst,
        Bind.bind, Except.bind]
  · simp [convertAst, isThisReceiverInst, isImplicitReceiverInst]

/-- Witness for C4 at the concrete names `foo`, `$event` and `$any`. -/
theorem thisReceiver_read_lowering_witness :
    convertAst 0 none (.propertyRead ⟨0, 1⟩ (.thisReceiver ⟨0, 0⟩) "foo") =
      .ok (.lexicalRead "foo") ∧
    convertAst 3 none (.propertyRead ⟨0, 1⟩ (.thisReceiver ⟨0, 0⟩) "$event") =
      .ok (.readProp (.context 3) "$event" none) ∧
    convertAst 0 none (.propertyRead ⟨0, 1⟩ (.implicitReceiver ⟨0, 0⟩) "$any") =
      .ok (.lexicalRead "$any") :=
  ⟨(thisReceiver_read_lowering 0 none ⟨0, 1⟩ ⟨0, 0⟩ "foo").1
      (by decide) (by decide),
   (thisReceiver_read_lowering 3 none ⟨0, 1⟩ ⟨0, 0⟩ "$event").2.1 (Or.inr rfl),
   (thisReceiver_read_lowering 0 none ⟨0, 1⟩ ⟨0, 0⟩ "$any").2.2⟩

/-! ## C9: calls with implicit receivers -/

/-- C9 counterexample: a call whose receiver is an explicit `this` — which
the claim excludes from "implicit receiver" and therefore expects to lower
to an invoke-function expression — in fact hits the fatal
`Unexpected ImplicitReceiver` error, because `e.ThisReceiver` is a subclass
of `e.ImplicitReceiver` and so passes the `instanceof` test. -/
theorem callThisReceiver_counterexample :
    convertAst 0 none (.call ⟨0, 2⟩ (.thisReceiver ⟨0, 0⟩) []) =
      .error "Unexpected ImplicitReceiver" := rfl

/-- C9 (amended): a call whose receiver passes the
`instanceof e.ImplicitReceiver` test — which includes an explicit `this`
receiver — raises the fatal error before lowering anything; a call with
any other receiver lowers to an invoke-function expression over the
lowered receiver and arguments. -/
theorem call_implicitReceiver_fatal_amended (rx : Nat)
    (base : Option ParseSourceSpan) (sp : ParseSpan) (receiver : EAst)
    (args : List EAst) :
    (isImplicitReceiverInst receiver = true →
      convertAst rx base (.call sp receiver args) =
        .error "Unexpected ImplicitReceiver") ∧
    (isImplicitReceiverInst receiver = false →
      ∀ re ra, convertAst rx base receiver = .ok re →
        convertAstList rx base args = .ok ra →
        convertAst rx base (.call sp receiver args) =
          .ok (.invokeFn re ra (convertSourceSpan sp base))) := by
  constructor
  · intro h
    simp [convertAst, h]
  · intro h re ra hre hra
    simp [convertAst, h, hre, hra, Bind.bind, Except.bind]

/-- Witness for C9 at a concrete erroring call and a concrete lowered
call. -/
theorem call_implicitReceiver_fatal_amended_witness :
    convertAst 0 none (.call ⟨0, 2⟩ (.implicitReceiver ⟨0, 0⟩) []) =
      .error "Unexpected ImplicitReceiver" ∧
    convertAst 5 none
        (.call ⟨0, 2⟩ (.propertyRead ⟨0, 1⟩ (.thisReceiver ⟨0, 0⟩) "$event")
          [.literalStr ⟨1, 2⟩ "a"]) =
      .ok (.invokeFn (.readProp (.context 5) "$event" none)
        [.literal "a" none] none) :=
  ⟨(call_implicitReceiver_fatal_amended 0 none ⟨0, 2⟩
      (.implicitReceiver ⟨0, 0⟩) []).1 rfl,
   (call_implicitReceiver_fatal_amended 5 none ⟨0, 2⟩
      (.propertyRead ⟨0, 1⟩ (.thisReceiver ⟨0, 0⟩) "$event")
      [.literalStr ⟨1, 2⟩ "a"]).2 rfl
      (.readProp (.context 5) "$event" none) [.literal "a" none] rfl rfl⟩

/-! ## C1: the i18n-attributes gate -/

/-- C1 (defect evidence): for an element and for a structural template
carrying no bindings at all — so certainly no binding carrying i18n
message metadata — binding ingestion still appends the i18n-attributes
bracket op.  The root cause is in the third conjunct: the gate embeds the
source's `bindings.some(...) !== null`, and a boolean is never `null`, so
the gate holds for every binding list whatsoever. -/
theorem i18nAttributes_always_appended :
    (ingestElementBindings schemaNone ⟨1, 0, []⟩ ⟨0, none, [], []⟩ 0
        (some "div") ⟨"div", [], [], [], none, sampleSpan, none, sampleSpan⟩ =
      .ok (⟨2, 0, []⟩, ⟨0, none, [CreateOp.i18nAttributes 1 0], []⟩)) ∧
    (ingestTemplateBindings schemaNone ⟨1, 0, []⟩ ⟨0, none, [], []⟩ 0 none
        ⟨none, [], [], [], [], none, sampleSpan, none, sampleSpan⟩
        (some .Structural) =
      .ok (⟨2, 0, []⟩, ⟨0, none, [CreateOp.i18nAttributes 1 0], []⟩)) ∧
    (∀ bindings : List (Option PreBinding), i18nAttributesGate bindings = true) :=
  ⟨rfl, rfl, fun _ => rfl⟩

/-! ## C5: structural-template binding demotion -/

/-- C5: On a structural-directive-implied template, a class-, style- or
property-typed binding that is not flagged as a structural template
attribute yields only an extracted-attribute record — which the filters
route to the create-list and never to the update-list — and a non-text
attribute- or animation-typed binding in that situation is dropped
entirely, producing no operation at all. -/
theorem structuralTemplateBinding_demotion (rx xref : Nat)
    (type : BindingType) (name : String) (value : StrOrAst)
    (unitSuffix : Option String) (sec : SecurityContext)
    (msg : Option Message) (span : ParseSourceSpan) :
    (type = .Property ∨ type = .Class ∨ type = .Style →
      createTemplateBinding rx xref type name value unitSuffix sec false
          (some .Structural) msg span =
        .ok (some (.extracted (createExtractedAttributeOp xref .Property none
          name none none msg (.one sec)))) ∧
      filterExtracted [some (.extracted (createExtractedAttributeOp xref
          .Property none name none none msg (.one sec)))] =
        [createExtractedAttributeOp xref .Property none name none none msg
          (.one sec)] ∧
      filterBindings [some (.extracted (createExtractedAttributeOp xref
          .Property none name none none msg (.one sec)))] = []) ∧
    ((∀ s, value ≠ .str s) → type = .Attribute ∨ type = .Animation →
      createTemplateBinding rx xref type name value unitSuffix sec false
          (some .Structural) msg span = .ok none ∧
      filterExtracted [(none : Option PreBinding)] = [] ∧
      filterBindings [(none : Option PreBinding)] = []) := by
  constructor
  · rintro (rfl | rfl | rfl) <;> exact ⟨rfl, rfl, rfl⟩
  · intro hval htype
    have hv : (match value with | StrOrAst.str _ => true | _ => false) = false := by
      cases value with
      | str s => exact absurd rfl (hval s)
      | astV v => rfl
    rcases htype with rfl | rfl <;>
      exact ⟨by simp [createTemplateBinding, hv], rfl, rfl⟩

/-- Witness for C5 at a concrete class binding and a concrete non-text
attribute binding. -/
theorem structuralTemplateBinding_demotion_witness :
    (createTemplateBinding 0 4 .Class "on" (.astV (.plain (.literalStr ⟨0, 1⟩ "x")))
        none SecurityContext.NONE false (some .Structural) none sampleSpan =
      .ok (some (.extracted (createExtractedAttributeOp 4 .Property none
        "on" none none none (.one SecurityContext.NONE)))) ∧
      filterExtracted [some (.extracted (createExtractedAttributeOp 4
          .Property none "on" none none none (.one SecurityContext.NONE)))] =
        [createExtractedAttributeOp 4 .Property none "on" none none none
          (.one SecurityContext.NONE)] ∧
      filterBindings [some (.extracted (createExtractedAttributeOp 4
          .Property none "on" none none none (.one SecurityContext.NONE)))] = []) ∧
    (createTemplateBinding 0 4 .Attribute "data-x"
        (.astV (.plain (.literalStr ⟨0, 1⟩ "x"))) none SecurityContext.NONE
        false (some .Structural) none sampleSpan = .ok none ∧
      filterExtracted [(none : Option PreBinding)] = [] ∧
      filterBindings [(none : Option PreBinding)] = []) :=
  ⟨(structuralTemplateBinding_demotion 0 4 .Class "on"
      (.astV (.plain (.literalStr ⟨0, 1⟩ "x"))) none SecurityContext.NONE
      none sampleSpan).1 (Or.inr (Or.inl rfl)),
   (structuralTemplateBinding_demotion 0 4 .Attribute "data-x"
      (.astV (.plain (.literalStr ⟨0, 1⟩ "x"))) none SecurityContext.NONE
      none sampleSpan).2 (fun s h => by cases h) (Or.inl rfl)⟩

/-! ## C2 and C10: host-binding ingestion -/

/-- The lowered binding op produced by `ingestHostProperty` always carries
the kind, (post-rewrite) name, security contexts and span it was handed. -/
theorem ingestHostProperty_shape (rx : Nat) (p : ParsedProperty)
    (k : BindingKind) (secs : List SecurityContext) (op : UpdateOp)
    (h : ingestHostProperty rx p k secs = .ok op) :
    ∃ v, op = UpdateOp.binding (createBindingOp rx k p.name v none
      (.many secs) false false none none (some p.sourceSpan)) := by
  cases hv : p.expression with
  | interpolation strings exprs =>
      simp only [ingestHostProperty, hv] at h
      obtain ⟨es, _, h⟩ := bindOk h
      exact ⟨_, (pureOk h).symm⟩
  | plain a =>
      simp only [ingestHostProperty, hv] at h
      obtain ⟨e, _, h⟩ := bindOk h
      exact ⟨_, (pureOk h).symm⟩

/-- The final property list accumulated by the host properties loop is the
input list with the `attr.`-name rewrite applied to each element. -/
theorem hostPropertiesLoop_outProps (sel : String)
    (calcSec : String → String → Bool → List SecurityContext)
    (ps : List ParsedProperty) (root r : ViewUnit)
    (acc out : List ParsedProperty)
    (h : hostPropertiesLoop sel calcSec ps root acc = .ok (r, out)) :
    out = acc ++ ps.map hostMutateProperty := by
  induction ps generalizing root acc with
  | nil =>
      simp only [hostPropertiesLoop] at h
      injection h with h'
      injection h' with h1 h2
      simp [← h2]
  | cons p rest ih =>
      by_cases hp : jsStartsWith p.name "attr." = true
      · simp only [hostPropertiesLoop, hp, if_true] at h
        obtain ⟨op, _, h⟩ := bindOk h
        have := ih _ _ h
        simp [this, hostMutateProperty, hp, List.append_assoc]
      · simp only [hostPropertiesLoop, hp, if_false, Bool.false_eq_true] at h
        obtain ⟨op, _, h⟩ := bindOk h
        have := ih _ _ h
        simp [this, hostMutateProperty, hp, List.append_assoc]

/-- The host attributes loop does not touch the property list or create
list; the host events loop does not touch the update list.  (Only the
parts needed below.) -/
theorem hostEventsLoop_update (evs : List ParsedEvent) (root r : ViewUnit)
    (h : hostEventsLoop evs root = .ok r) : r.update = root.update := by
  induction evs generalizing root with
  | nil => exact congrArg ViewUnit.update (Except.ok.inj h).symm
  | cons ev rest ih =>
      simp only [hostEventsLoop] at h
      obtain ⟨op, _, h⟩ := bindOk h
      simpa using ih _ h

/-- C10: host-binding ingestion returns the caller-supplied property
declarations mutated exactly by the `attr.`-prefix name rewrite: every
property whose name starts with `attr.` has its name overwritten in place
with the prefix stripped, and no other field of any declaration changes. -/
theorem hostBinding_mutation_frame (input : HostBindingInput)
    (calcSec : String → String → Bool → List SecurityContext)
    (root : ViewUnit) (props : List ParsedProperty)
    (h : ingestHostBinding input calcSec = .ok (root, props)) :
    props = (input.properties.getD []).map hostMutateProperty ∧
    ∀ p : ParsedProperty,
      (hostMutateProperty p).expression = p.expression ∧
      (hostMutateProperty p).isAnimation = p.isAnimation ∧
      (hostMutateProperty p).sourceSpan = p.sourceSpan ∧
      (hostMutateProperty p).name =
        (if jsStartsWith p.name "attr." then
          jsSubstringFrom p.name "attr.".length
        else p.name) := by
  constructor
  · simp only [ingestHostBinding] at h
    obtain ⟨⟨r1, out1⟩, h1, h⟩ := bindOk h
    obtain ⟨r2, h2, h⟩ := bindOk h
    have hfin := pureOk h
    have heq : out1 = props := congrArg Prod.snd hfin
    have := hostPropertiesLoop_outProps _ _ _ _ _ _ _ h1
    rw [← heq]
    simpa using this
  · intro p
    by_cases hp : jsStartsWith p.name "attr." = true <;>
      simp [hostMutateProperty, hp]

/-- Witness for C10: a two-property input (one `attr.`-prefixed, one not)
comes back with exactly the first name rewritten. -/
theorem hostBinding_mutation_frame_witness :
    ([⟨"foo", .plain (.literalStr ⟨0, 1⟩ "v"), false, sampleSpan⟩,
      ⟨"bar", .plain (.literalStr ⟨0, 1⟩ "w"), false, sampleSpan⟩] :
        List ParsedProperty) =
      ((some [⟨"attr.foo", .plain (.literalStr ⟨0, 1⟩ "v"), false, sampleSpan⟩,
        ⟨"bar", .plain (.literalStr ⟨0, 1⟩ "w"), false, sampleSpan⟩] :
          Option (List ParsedProperty)).getD []).map hostMutateProperty ∧
    ∀ p : ParsedProperty,
      (hostMutateProperty p).expression = p.expression ∧
      (hostMutateProperty p).isAnimation = p.isAnimation ∧
      (hostMutateProperty p).sourceSpan = p.sourceSpan ∧
      (hostMutateProperty p).name =
        (if jsStartsWith p.name "attr." then
          jsSubstringFrom p.name "attr.".length
        else p.name) := by
  have h := hostBinding_mutation_frame
    ⟨"C", "c", some [⟨"attr.foo", .plain (.literalStr ⟨0, 1⟩ "v"), false, sampleSpan⟩,
      ⟨"bar", .plain (.literalStr ⟨0, 1⟩ "w"), false, sampleSpan⟩], [], none⟩
    (fun _ _ _ => [])
    ⟨0, none, [],
      [UpdateOp.binding (createBindingOp 0 .Attribute "foo"
        (.expr (.literal "v" (some sampleSpan))) none (.many []) false false
        none none (some sampleSpan)),
       UpdateOp.binding (createBindingOp 0 .Property "bar"
        (.expr (.literal "w" (some sampleSpan))) none (.many []) false false
        none none (some sampleSpan))]⟩
    [⟨"foo", .plain (.literalStr ⟨0, 1⟩ "v"), false, sampleSpan⟩,
     ⟨"bar", .plain (.literalStr ⟨0, 1⟩ "w"), false, sampleSpan⟩]
    rfl
  exact h

/-- C2 counterexample: a host property named `attr.foo` that is also an
animation binding is ingested with animation kind, not attribute kind
(the `isAnimation` reclassification runs after — and overrides — the
`attr.`-prefix reclassification; the prefix is still stripped). -/
theorem attrPrefixAnimation_counterexample :
    ingestHostBinding
        ⟨"C", "c",
         some [⟨"attr.foo", .plain (.literalStr ⟨0, 1⟩ "v"), true, sampleSpan⟩],
         [], none⟩
        (fun _ _ _ => []) =
      .ok (⟨0, none, [],
        [UpdateOp.binding (createBindingOp 0 .Animation "foo"
          (.expr (.literal "v" (some sampleSpan))) none (.many []) false false
          none none (some sampleSpan))]⟩,
        [⟨"foo", .plain (.literalStr ⟨0, 1⟩ "v"), true, sampleSpan⟩]) ∧
    BindingKind.Animation ≠ BindingKind.Attribute :=
  ⟨rfl, by decide⟩

/-- C2 (amended): a host property whose name starts with `attr.` has the
prefix stripped from its name and is reclassified as an attribute-kind
binding unless it is also declared as an animation binding, in which case
the animation reclassification wins (the prefix is still stripped). -/
theorem attrPrefix_reclassification_amended (cn sel : String)
    (p : ParsedProperty)
    (calcSec : String → String → Bool → List SecurityContext)
    (root : ViewUnit) (props : List ParsedProperty)
    (hname : jsStartsWith p.name "attr." = true)
    (h : ingestHostBinding ⟨cn, sel, some [p], [], none⟩ calcSec = .ok (root, props)) :
    ∃ v, root.update = [UpdateOp.binding (createBindingOp hostRootXref
      (if p.isAnimation then .Animation else .Attribute)
      (jsSubstringFrom p.name "attr.".length) v none
      (.many ((calcSec sel (jsSubstringFrom p.name "attr.".length)
        ((if p.isAnimation then BindingKind.Animation else .Attribute) =
          BindingKind.Attribute)).filter
        (fun context => context ≠ SecurityContext.NONE)))
      false false none none (some p.sourceSpan))] ∧
    props = [{ p with name := jsSubstringFrom p.name "attr.".length }] := by
  simp only [ingestHostBinding] at h
  obtain ⟨⟨r1, out1⟩, h1, h⟩ := bindOk h
  obtain ⟨r2, h2, h⟩ := bindOk h
  have hfin := pureOk h
  simp only [hostPropertiesLoop, hname, if_true] at h1
  obtain ⟨op, hop, hrec⟩ := bindOk h1
  have hrec' := pureOk hrec
  obtain ⟨v, hv⟩ := ingestHostProperty_shape _ _ _ _ _ hop
  refine ⟨v, ?_, ?_⟩
  · have hupd1 : r1.update = [op] := by
      have := congrArg ViewUnit.update (congrArg Prod.fst hrec')
      simpa using this.symm
    have hupd2 : r2.update = r1.update := by
      have hattrs : hostAttributesLoop sel calcSec [] r1 = r1 := rfl
      exact hostEventsLoop_update _ _ _ (by simpa [hattrs] using h2)
    have hroot : root = r2 := (congrArg Prod.fst hfin).symm
    rw [hroot, hupd2, hupd1, hv]
  · have hout : out1 = props := congrArg Prod.snd hfin
    have := congrArg Prod.snd hrec'
    simp only at this
    rw [← hout, ← this]
    simp

/-- Witness for C2 at a concrete animation property named `attr.foo`. -/
theorem attrPrefix_reclassification_amended_witness :
    ∃ v, ([UpdateOp.binding (createBindingOp 0 .Animation "foo"
        (.expr (.literal "v" (some sampleSpan))) none (.many []) false false
        none none (some sampleSpan))] : List UpdateOp) =
      [UpdateOp.binding (createBindingOp hostRootXref
        (if true then BindingKind.Animation else .Attribute)
        (jsSubstringFrom "attr.foo" "attr.".length) v none
        (.many (((fun _ _ _ => ([] : List SecurityContext)) "c"
          (jsSubstringFrom "attr.foo" "attr.".length)
          ((if true then BindingKind.Animation else .Attribute) =
            BindingKind.Attribute)).filter
          (fun context => context ≠ SecurityContext.NONE)))
        false false none none (some sampleSpan))] ∧
      ([(⟨"foo", .plain (.literalStr ⟨0, 1⟩ "v"), true, sampleSpan⟩ :
          ParsedProperty)]) =
        [{ (⟨"attr.foo", .plain (.literalStr ⟨0, 1⟩ "v"), true, sampleSpan⟩ :
            ParsedProperty) with
          name := jsSubstringFrom "attr.foo" "attr.".length }] :=
  attrPrefix_reclassification_amended "C" "c"
    ⟨"attr.foo", .plain (.literalStr ⟨0, 1⟩ "v"), true, sampleSpan⟩
    (fun _ _ _ => [])
    ⟨0, none, [],
      [UpdateOp.binding (createBindingOp 0 .Animation "foo"
        (.expr (.literal "v" (some sampleSpan))) none (.many []) false false
        none none (some sampleSpan))]⟩
    [⟨"foo", .plain (.literalStr ⟨0, 1⟩ "v"), true, sampleSpan⟩]
    rfl rfl

/-! ## C3: defer-trigger idle synthesis -/

/-- Embeds `pushTriggerOpt` appends at most one op, whose prefetch flag is the one
baked into the builder function. -/
theorem pushTriggerOpt_spec {α : Type} (o : Option α) (f : α → DeferOnOp)
    (l : List DeferOnOp) (p : Bool) (hf : ∀ t, (f t).prefetch = p) :
    ∃ n, pushTriggerOpt o f l = l ++ n ∧
      n.length = (if o.isSome then 1 else 0) ∧ ∀ op ∈ n, op.prefetch = p := by
  cases o with
  | none => exact ⟨[], by simp [pushTriggerOpt], by simp, by simp⟩
  | some t => exact ⟨[f t], rfl, by simp, by simp [hf]⟩

/-- Structure of one trigger pass: the ops appended for `tr`'s explicit
triggers all carry the pass's prefetch flag and number exactly
`triggerCount tr`; an idle op is synthesized exactly when the cumulative
lists are still empty at the end of the pass. -/
theorem deferTriggerPass_spec (dx rx : Nat) (tr : DeferredBlockTriggers)
    (prefetch : Bool) (onI : List DeferOnOp) (whenI : List DeferWhenOp)
    (onO : List DeferOnOp) (whenO : List DeferWhenOp)
    (h : deferTriggerPass dx rx tr prefetch onI whenI = .ok (onO, whenO)) :
    ∃ onNew whenNew synthL,
      onO = onI ++ onNew ++ synthL ∧ whenO = whenI ++ whenNew ∧
      onNew.length + whenNew.length = triggerCount tr ∧
      (∀ op ∈ onNew, op.prefetch = prefetch) ∧
      (∀ op ∈ whenNew, op.prefetch = prefetch) ∧
      ((onI ++ onNew = [] ∧ whenI ++ whenNew = [] ∧ synthL = [synthIdleOp dx]) ∨
       (¬(onI ++ onNew = [] ∧ whenI ++ whenNew = []) ∧ synthL = [])) := by
  obtain ⟨n1, e1, l1, p1⟩ := pushTriggerOpt_spec tr.idle
    (fun t => DeferOnOp.mk dx .Idle prefetch (some t.sourceSpan)) onI prefetch
    (fun t => rfl)
  obtain ⟨n2, e2, l2, p2⟩ := pushTriggerOpt_spec tr.immediate
    (fun t => DeferOnOp.mk dx .Immediate prefetch (some t.sourceSpan))
    (onI ++ n1) prefetch (fun t => rfl)
  obtain ⟨n3, e3, l3, p3⟩ := pushTriggerOpt_spec tr.timer
    (fun t => DeferOnOp.mk dx (.Timer t.delay) prefetch (some t.sourceSpan))
    (onI ++ n1 ++ n2) prefetch (fun t => rfl)
  obtain ⟨n4, e4, l4, p4⟩ := pushTriggerOpt_spec tr.hover
    (fun t => DeferOnOp.mk dx (.Hover t.reference) prefetch (some t.sourceSpan))
    (onI ++ n1 ++ n2 ++ n3) prefetch (fun t => rfl)
  obtain ⟨n5, e5, l5, p5⟩ := pushTriggerOpt_spec tr.interaction
    (fun t => DeferOnOp.mk dx (.Interaction t.reference) prefetch (some t.sourceSpan))
    (onI ++ n1 ++ n2 ++ n3 ++ n4) prefetch (fun t => rfl)
  obtain ⟨n6, e6, l6, p6⟩ := pushTriggerOpt_spec tr.viewport
    (fun t => DeferOnOp.mk dx (.Viewport t.reference) prefetch (some t.sourceSpan))
    (onI ++ n1 ++ n2 ++ n3 ++ n4 ++ n5) prefetch (fun t => rfl)
  simp only [deferTriggerPass, e1, e2, e3, e4, e5, e6] at h
  have honNew : ∀ op ∈ n1 ++ n2 ++ n3 ++ n4 ++ n5 ++ n6, op.prefetch = prefetch := by
    intro op hop
    simp only [List.mem_append] at hop
    rcases hop with ((((h' | h') | h') | h') | h') | h'
    exacts [p1 op h', p2 op h', p3 op h', p4 op h', p5 op h', p6 op h']
  have hlen : (n1 ++ n2 ++ n3 ++ n4 ++ n5 ++ n6).length =
      (if tr.idle.isSome then 1 else 0) + (if tr.immediate.isSome then 1 else 0) +
      (if tr.timer.isSome then 1 else 0) + (if tr.hover.isSome then 1 else 0) +
      (if tr.interaction.isSome then 1 else 0) +
      (if tr.viewport.isSome then 1 else 0) := by
    simp only [List.length_append, l1, l2, l3, l4, l5, l6]
  cases hw : tr.whenTrigger with
  | none =>
      simp only [hw, pure, Except.pure, Bind.bind, Except.bind] at h
      injection h with h'
      injection h' with ho hwn
      by_cases hcond :
          ((onI ++ n1 ++ n2 ++ n3 ++ n4 ++ n5 ++ n6).length == 0 &&
            whenI.length == 0) = true
      · rw [if_pos hcond] at ho
        simp only [Bool.and_eq_true, beq_iff_eq] at hcond
        refine ⟨n1 ++ n2 ++ n3 ++ n4 ++ n5 ++ n6, [], [synthIdleOp dx],
          ?_, by rw [← hwn, List.append_nil], ?_, honNew, by simp, ?_⟩
        · rw [← ho]
          simp [List.append_assoc]
        · rw [List.length_nil, hlen, triggerCount, hw]
          simp
        · left
          refine ⟨?_, ?_, rfl⟩
          · apply List.eq_nil_of_length_eq_zero
            have := hcond.1
            simp only [List.length_append] at this ⊢
            omega
          · rw [List.append_nil]
            exact List.eq_nil_of_length_eq_zero hcond.2
      · rw [if_neg hcond] at ho
        simp only [Bool.and_eq_true, beq_iff_eq, not_and_or] at hcond
        refine ⟨n1 ++ n2 ++ n3 ++ n4 ++ n5 ++ n6, [], [],
          ?_, by rw [← hwn, List.append_nil], ?_, honNew, by simp, ?_⟩
        · rw [← ho]
          simp [List.append_assoc]
        · rw [List.length_nil, hlen, triggerCount, hw]
          simp
        · right
          refine ⟨?_, rfl⟩
          rintro ⟨hnil1, hnil2⟩
          have hbig : onI ++ n1 ++ n2 ++ n3 ++ n4 ++ n5 ++ n6 = [] := by
            simpa [List.append_assoc] using hnil1
          have hwhenI : whenI = [] := by simpa using hnil2
          rcases hcond with hcond | hcond
          · exact hcond (by rw [hbig]; rfl)
          · exact hcond (by rw [hwhenI]; rfl)
  | some t =>
      cases hv : t.value with
      | interpolation strings exprs =>
          simp only [hw, hv, throw, throwThe, MonadExceptOf.throw, Bind.bind,
            Except.bind] at h
          exact Except.noConfusion h
      | plain a =>
          simp only [hw, hv, Bind.bind, Except.bind] at h
          cases hconv : convertAst rx (some t.sourceSpan) a with
          | error e => rw [hconv] at h; simp at h
          | ok e =>
              rw [hconv] at h
              simp only [pure, Except.pure] at h
              injection h with h'
              injection h' with ho hwn
              by_cases hcond :
                  ((onI ++ n1 ++ n2 ++ n3 ++ n4 ++ n5 ++ n6).length == 0 &&
                    (whenI ++ [DeferWhenOp.mk dx e prefetch t.sourceSpan]).length
                      == 0) = true
              · exfalso
                simp only [Bool.and_eq_true, beq_iff_eq, List.length_append,
                  List.length_cons, List.length_nil] at hcond
                omega
              · rw [if_neg hcond] at ho
                refine ⟨n1 ++ n2 ++ n3 ++ n4 ++ n5 ++ n6,
                  [DeferWhenOp.mk dx e prefetch t.sourceSpan], [],
                  ?_, by rw [← hwn], ?_, honNew, by simp, ?_⟩
                · rw [← ho]
                  simp [List.append_assoc]
                · rw [List.length_cons, List.length_nil, hlen, triggerCount, hw]
                  simp
                · right
                  refine ⟨?_, rfl⟩
                  rintro ⟨hnil1, hnil2⟩
                  simp at hnil2

/-- C3: if the regular (non-prefetch) pass declares no trigger at all,
ingestion synthesizes exactly one idle trigger marked non-prefetch — it is
the only non-prefetch op in the output, and every other output op comes
from an explicit prefetch trigger (nothing is synthesized for the prefetch
pass); if the regular pass declares at least one trigger, nothing is
synthesized at all and the output ops are exactly the explicit ones. -/
theorem deferTriggers_idle_synthesis (dx rx : Nat)
    (t1 t2 : DeferredBlockTriggers) (onOps : List DeferOnOp)
    (whenOps : List DeferWhenOp)
    (h : ingestDeferTriggers dx rx t1 t2 = .ok (onOps, whenOps)) :
    (triggerCount t1 = 0 →
      onOps.filter (fun op => op.prefetch == false) = [synthIdleOp dx] ∧
      whenOps.filter (fun op => op.prefetch == false) = [] ∧
      onOps.length + whenOps.length = 1 + triggerCount t2) ∧
    (triggerCount t1 ≠ 0 →
      onOps.length + whenOps.length = triggerCount t1 + triggerCount t2) := by
  obtain ⟨⟨onM, whenM⟩, h1, h2⟩ := bindOk (by simpa [ingestDeferTriggers, Bind.bind] using h)
  obtain ⟨a1, w1, s1, ha1, hw1, hl1, hp1, hq1, hs1⟩ :=
    deferTriggerPass_spec _ _ _ _ _ _ _ _ h1
  obtain ⟨a2, w2, s2, ha2, hw2, hl2, hp2, hq2, hs2⟩ :=
    deferTriggerPass_spec _ _ _ _ _ _ _ _ h2
  simp only [List.nil_append] at ha1 hw1 hs1
  constructor
  · intro hc
    have hz : a1.length + w1.length = 0 := by rw [hl1, hc]
    have ha1nil : a1 = [] := List.eq_nil_of_length_eq_zero (by omega)
    have hw1nil : w1 = [] := List.eq_nil_of_length_eq_zero (by omega)
    have hs1v : s1 = [synthIdleOp dx] := by
      rcases hs1 with ⟨_, _, hv⟩ | ⟨hn, _⟩
      · exact hv
      · exact absurd ⟨ha1nil, hw1nil⟩ hn
    have honM : onM = [synthIdleOp dx] := by
      rw [ha1, ha1nil, hs1v]; rfl
    have hwhenM : whenM = [] := by rw [hw1, hw1nil]
    rw [honM] at ha2 hs2
    rw [hwhenM] at hw2 hs2
    have hs2nil : s2 = [] := by
      rcases hs2 with ⟨hn, _, _⟩ | ⟨_, hv⟩
      · exact absurd hn (by simp)
      · exact hv
    rw [hs2nil, List.append_nil] at ha2
    simp only [List.nil_append] at hw2
    have hfon : onOps.filter (fun op => op.prefetch == false) = [synthIdleOp dx] := by
      rw [ha2, List.filter_append]
      have hfa2 : a2.filter (fun op => op.prefetch == false) = [] := by
        rw [List.filter_eq_nil_iff]
        intro op hop
        simp [hp2 op hop]
      rw [hfa2]
      simp [synthIdleOp]
    have hfwhen : whenOps.filter (fun op => op.prefetch == false) = [] := by
      rw [hw2, List.filter_eq_nil_iff]
      intro op hop
      simp [hq2 op hop]
    refine ⟨hfon, hfwhen, ?_⟩
    rw [ha2, hw2]
    simp only [List.length_append, List.length_cons, List.length_nil,
      List.singleton_append]
    omega
  · intro hc
    have hz : a1.length + w1.length ≠ 0 := by rw [hl1]; exact hc
    have hs1nil : s1 = [] := by
      rcases hs1 with ⟨hn1, hn2, _⟩ | ⟨_, hv⟩
      · exfalso
        rw [hn1, hn2] at hz
        simp at hz
      · exact hv
    rw [hs1nil, List.append_nil] at ha1
    rw [ha1] at ha2 hs2
    rw [hw1] at hw2 hs2
    simp only [List.nil_append] at hw2 hs2
    have hs2nil : s2 = [] := by
      rcases hs2 with ⟨hn1, hn2, _⟩ | ⟨_, hv⟩
      · exfalso
        have h1' := (List.append_eq_nil.mp hn1).1
        have h2' := (List.append_eq_nil.mp hn2).1
        rw [h1', h2'] at hz
        simp at hz
      · exact hv
    rw [hs2nil, List.append_nil] at ha2
    rw [ha2, hw2]
    simp only [List.length_append]
    omega

/-- Witness for C3: a defer block with no explicit triggers in either pass
yields exactly the synthesized non-prefetch idle trigger. -/
theorem deferTriggers_idle_synthesis_witness :
    [synthIdleOp 1].filter (fun op => op.prefetch == false) = [synthIdleOp 1] ∧
    ([] : List DeferWhenOp).filter (fun op => op.prefetch == false) = [] ∧
    [synthIdleOp 1].length + ([] : List DeferWhenOp).length =
      1 + triggerCount noTriggers :=
  (deferTriggers_idle_synthesis 1 0 noTriggers noTriggers [synthIdleOp 1] []
    rfl).1 rfl

/-! ## C6: insertion-point inference -/

/-- A comment never qualifies as a root. -/
theorem cfIsComment_not_qualifies {c : CfNode} (h : cfIsComment c = true) :
    cfQualifies c = false := by
  cases c <;> simp_all [cfIsComment, cfQualifies]

/-- Once a root is held, the loop keeps it exactly when every remaining
child is a comment. -/
theorem cfFindRoot_some (r : CfNode) (l : List CfNode) :
    cfFindRoot (some r) l = if l.all cfIsComment then some r else none := by
  induction l with
  | nil => rfl
  | cons c rest ih =>
      by_cases hc : cfIsComment c = true
      · simp [cfFindRoot, hc, ih, List.all_cons]
      · simp only [Bool.not_eq_true] at hc
        simp [cfFindRoot, hc, List.all_cons]

/-- The independent characterization of the root-finding loop: the first
qualifying child is the root exactly when everything after it is a
comment; children before the first qualifying child are ignored
entirely. -/
def cfRootSpec (children : List CfNode) : Option CfNode :=
  match children.dropWhile (fun c => !cfQualifies c) with
  | [] => none
  | c :: post => if post.all cfIsComment then some c else none

/-- The loop refines the characterization. -/
theorem cfFindRoot_eq_spec (children : List CfNode) :
    cfFindRoot none children = cfRootSpec children := by
  induction children with
  | nil => rfl
  | cons c rest ih =>
      by_cases hq : cfQualifies c = true
      · have hc : cfIsComment c = false := by
          cases hcc : cfIsComment c
          · rfl
          · rw [cfIsComment_not_qualifies hcc] at hq; cases hq
        simp [cfFindRoot, hc, hq, cfRootSpec, List.dropWhile, cfFindRoot_some]
      · simp only [Bool.not_eq_true] at hq
        by_cases hc : cfIsComment c = true
        · simpa [cfFindRoot, hc, cfRootSpec, List.dropWhile, hq] using ih
        · simp only [Bool.not_eq_true] at hc
          simpa [cfFindRoot, hc, hq, cfRootSpec, List.dropWhile] using ih

/-- The claim's eligibility condition, stated from its words: the
immediate children, ignoring comments, consist of exactly one element or
exactly one tag-named template. -/
def claimedSingleRootCond (children : List CfNode) : Bool :=
  match children.filter (fun c => !cfIsComment c) with
  | [c] => cfQualifies c
  | _ => false

/-- C6 counterexample: a branch whose children are a text node followed by
a `div` element has two non-comment children — so the claim's "exactly
one element, ignoring comments" condition is false — yet the inference
still yields the tag name `div`, because the loop ignores non-comment,
non-qualifying children seen before the first qualifying child. -/
theorem insertionPoint_leadingText_counterexample :
    ingestControlFlowInsertionPoint schemaNone 7
        [CfNode.textNode "x", CfNode.element "div" [] []] =
      .ok (some "div", []) ∧
    claimedSingleRootCond [CfNode.textNode "x", CfNode.element "div" [] []] =
      false :=
  ⟨rfl, rfl⟩

/-- C6 (amended): the inference yields a root exactly when the branch's
children contain a first qualifying child (an element, or a template with
a tag name) that is followed only by comments — any non-comment,
non-qualifying children before it are ignored.  When no such child exists,
the tag is null and no attribute ops are produced; when it exists, the
produced ops are exactly the binding ops for the root's static attributes,
and the tag is the root's tag unless that is the reserved `ng-template`
name, which is suppressed to null (attributes are still copied). -/
theorem insertionPoint_inference_amended
    (schema : String → String → Bool → SecurityContext) (xref : Nat)
    (children : List CfNode) (tagOpt : Option String) (ops : List UpdateOp)
    (h : ingestControlFlowInsertionPoint schema xref children =
      .ok (tagOpt, ops)) :
    (cfRootSpec children = none → tagOpt = none ∧ ops = []) ∧
    (∀ root, cfRootSpec children = some root →
      (cfAttributes root).mapM (mkCfAttrBindingOp schema xref) = .ok ops ∧
      tagOpt = (if cfTagOf root = some NG_TEMPLATE_TAG_NAME then none
                else cfTagOf root)) := by
  rw [ingestControlFlowInsertionPoint] at h
  rw [cfFindRoot_eq_spec] at h
  constructor
  · intro hnone
    rw [hnone] at h
    have := Except.ok.inj h
    exact ⟨(congrArg Prod.fst this).symm, (congrArg Prod.snd this).symm⟩
  · intro root hroot
    rw [hroot] at h
    simp only [Bind.bind] at h
    obtain ⟨ops', hops, h⟩ := bindOk h
    have := pureOk h
    refine ⟨?_, (congrArg Prod.fst this).symm⟩
    rw [hops]
    exact congrArg Except.ok (congrArg Prod.snd this)

/-- Witness for C6 at a single root element (part two of the theorem) and
at a comment-only branch (part one). -/
theorem insertionPoint_inference_amended_witness :
    (((none : Option String) = none ∧ ([] : List UpdateOp) = []) ∧
     (([] : List TextAttribute).mapM (mkCfAttrBindingOp schemaNone 7) =
        .ok ([] : List UpdateOp) ∧
      (some "div" : Option String) =
        (if cfTagOf (CfNode.element "div" [] []) = some NG_TEMPLATE_TAG_NAME
         then none else cfTagOf (CfNode.element "div" [] [])))) :=
  ⟨(insertionPoint_inference_amended schemaNone 7 [CfNode.comment "c"] none []
      rfl).1 rfl,
   (insertionPoint_inference_amended schemaNone 7 [CfNode.element "div" [] []]
      (some "div") [] rfl).2 (CfNode.element "div" [] []) rfl⟩

/-! ## C7: the element-end op's source span -/

/-- Embeds `insertBeforeLast` never yields the empty list. -/
theorem insertBeforeLast_ne_nil {α : Type} (x : α) (l : List α) :
    insertBeforeLast x l ≠ [] := by
  cases l with
  | nil => simp [insertBeforeLast]
  | cons a m => cases m <;> simp [insertBeforeLast]

/-- Inserting before the last element leaves the last element in place. -/
theorem getLast?_insertBeforeLast {α : Type} (x y : α) (l : List α) :
    (insertBeforeLast x (l ++ [y])).getLast? = some y := by
  induction l with
  | nil => rfl
  | cons a l ih =>
      have hstep : insertBeforeLast x ((a :: l) ++ [y]) =
          a :: insertBeforeLast x (l ++ [y]) := by
        cases l <;> rfl
      obtain ⟨b, m, hm⟩ : ∃ b m, insertBeforeLast x (l ++ [y]) = b :: m := by
        cases hh : insertBeforeLast x (l ++ [y]) with
        | nil => exact absurd hh (insertBeforeLast_ne_nil x _)
        | cons b m => exact ⟨b, m, rfl⟩
      rw [hstep, hm, List.getLast?_cons_cons, ← hm, ih]

/-- C7: whenever ingesting an element node succeeds, the last create-list
op is the element-end op, and its source span is the element's end tag
span, falling back to the start tag's span when no distinct end tag exists
(`element.endSourceSpan ?? element.startSourceSpan`). -/
theorem elementEnd_span_fallback
    (schema : String → String → Bool → SecurityContext) (data : TElementData)
    (children : List TNode) (st st' : IngestState) (unit unit' : ViewUnit)
    (h : ingestNode schema (.element data children) st unit = .ok (st', unit')) :
    unit'.create.getLast? =
      some (CreateOp.elementEnd st.nextXref
        (data.endSourceSpan.getD data.startSourceSpan)) := by
  cases hm : data.i18nMeta with
  | none =>
      simp only [ingestNode, hm, allocateXrefId, Bind.bind, Except.bind,
        pure, Except.pure] at h
      obtain ⟨⟨st2, unit2⟩, hb, h⟩ := bindOk (by exact h)
      obtain ⟨⟨st3, unit3⟩, hn, h⟩ := bindOk (by exact h)
      have hfin := pureOk (by exact h)
      have hcr : unit3.create ++
          [CreateOp.elementEnd st.nextXref
            (data.endSourceSpan.getD data.startSourceSpan)] = unit'.create :=
        congrArg (fun p => p.2.create) hfin
      rw [← hcr]
      exact List.getLast?_concat _
  | some meta =>
      cases meta with
      | message m =>
          simp only [ingestNode, hm, allocateXrefId, Bind.bind, Except.bind,
            pure, Except.pure] at h
          obtain ⟨⟨st2, unit2⟩, hb, h⟩ := bindOk (by exact h)
          obtain ⟨⟨st3, unit3⟩, hn, h⟩ := bindOk (by exact h)
          have hfin := pureOk (by exact h)
          have hcr : insertBeforeLast
              (CreateOp.i18nEnd st2.nextXref
                (data.endSourceSpan.getD data.startSourceSpan))
              (unit3.create ++
                [CreateOp.elementEnd st.nextXref
                  (data.endSourceSpan.getD data.startSourceSpan)]) =
              unit'.create :=
            congrArg (fun p => p.2.create) hfin
          rw [← hcr]
          exact getLast?_insertBeforeLast _ _ _
      | tagPlaceholder p =>
          simp only [ingestNode, hm, allocateXrefId, Bind.bind, Except.bind,
            pure, Except.pure] at h
          obtain ⟨⟨st2, unit2⟩, hb, h⟩ := bindOk (by exact h)
          obtain ⟨⟨st3, unit3⟩, hn, h⟩ := bindOk (by exact h)
          have hfin := pureOk (by exact h)
          have hcr : unit3.create ++
              [CreateOp.elementEnd st.nextXref
                (data.endSourceSpan.getD data.startSourceSpan)] = unit'.create :=
            congrArg (fun p => p.2.create) hfin
          rw [← hcr]
          exact List.getLast?_concat _
      | blockPlaceholder p =>
          simp only [ingestNode, hm, throw, throwThe, MonadExceptOf.throw,
            Bind.bind, Except.bind] at h
          exact Except.noConfusion h
      | container p =>
          simp only [ingestNode, hm, throw, throwThe, MonadExceptOf.throw,
            Bind.bind, Except.bind] at h
          exact Except.noConfusion h

/-- Witness for C7: a void `<input>` element (no children, no end tag)
whose element-end op reuses the start tag's span. -/
theorem elementEnd_span_fallback_witness :
    ([CreateOp.elementStart "input" 0 .HTML none sampleSpan sampleSpan,
      CreateOp.i18nAttributes 1 0,
      CreateOp.elementEnd 0 sampleSpan] : List CreateOp).getLast? =
      some (CreateOp.elementEnd 0
        ((none : Option ParseSourceSpan).getD sampleSpan)) :=
  elementEnd_span_fallback schemaNone
    ⟨"input", [], [], [], none, sampleSpan, none, sampleSpan⟩ [] ⟨0, 0, []⟩
    ⟨2, 0, []⟩ ⟨0, none, [], []⟩
    ⟨0, none,
     [CreateOp.elementStart "input" 0 .HTML none sampleSpan sampleSpan,
      CreateOp.i18nAttributes 1 0,
      CreateOp.elementEnd 0 sampleSpan], []⟩ rfl

end Ingest
